import Mathlib

/-!
Verification of the BananaPod worker gateway (src/worker/src plus its db
module): session authentication, the history ledger with cursor pagination,
the media store, and the generation-orchestration routes.

The embedding is shallow: each TypeScript function is translated into an
executable Lean definition.  Stores are association lists (D1 tables, the R2
bucket, the users KV namespace); asynchronous upstream calls are supplied as
oracles (explicit arguments giving each call's outcome); `Date.now()` and
`crypto.randomUUID()` are likewise supplied as explicit clock/id arguments.
Byte blobs are represented by the base64 string they were decoded from
(`decodeBase64ToUint8Array` is injective on the payloads the worker handles,
so blob equality coincides with base64-string equality).
-/

namespace BananaPod

/-- History ledger row, from the db module (`HistoryRow`) and D1 migration
0001: `id` is the primary key, `created_at` a millisecond timestamp. -/
structure HistoryRow where
  id : String
  user_key : String
  kind : String
  prompt : String
  created_at : Nat
  r2_key : String
  mime_type : String
  width : Option Nat := none
  height : Option Nat := none
  extra_json : Option String := none
deriving DecidableEq

/-- Session row, from the sessions D1 table (`session_id` primary key). -/
structure SessionRow where
  session_id : String
  user_key : String
  created_at : Nat
  expires_at : Nat
deriving DecidableEq

/-- Value held in the USERS_KV namespace.  Allowlist flags are raw strings;
`videoop:<name>` keys hold `JSON.stringify({userKey, prompt})`, modelled
structurally (JSON round-trip is the identity on these two-field records). -/
inductive KvValue
| raw (s : String)
| videoOp (userKey prompt : String)
deriving DecidableEq

/-- USERS_KV namespace: association list, most recent write first. -/
abbrev KvStore := List (String × KvValue)

/-- R2 media bucket: key maps to (content, httpMetadata.contentType). -/
abbrev MediaStore := List (String × String × String)

def kvGet (kv : KvStore) (key : String) : Option KvValue :=
  (kv.find? (fun e => e.1 == key)).map (·.2)

def kvPut (kv : KvStore) (key : String) (v : KvValue) : KvStore :=
  (key, v) :: kv

def kvDelete (kv : KvStore) (key : String) : KvStore :=
  kv.filter (fun e => !(e.1 == key))

def mediaGet (m : MediaStore) (key : String) : Option (String × String) :=
  (m.find? (fun e => e.1 == key)).map (·.2)

def mediaPut (m : MediaStore) (key content contentType : String) : MediaStore :=
  (key, content, contentType) :: m

def mediaDelete (m : MediaStore) (key : String) : MediaStore :=
  m.filter (fun e => !(e.1 == key))

/-- Ledger point lookup, from `getHistoryById` (`SELECT * FROM history WHERE
id = ?` followed by `.first`). -/
def getHistoryById (ledger : List HistoryRow) (id : String) : Option HistoryRow :=
  ledger.find? (fun r => r.id == id)

/-- Ledger read-then-delete, from `deleteHistoryById`: look the row up, and
when present delete it unconditionally, returning the deleted row.  Returns
the row (if any) together with the resulting table. -/
def deleteHistoryById (ledger : List HistoryRow) (id : String) :
    Option HistoryRow × List HistoryRow :=
  match getHistoryById ledger id with
  | none => (none, ledger)
  | some row => (some row, ledger.filter (fun r => !(r.id == id)))

/-- Ledger insert, from `insertHistory` (single-row `INSERT`). -/
def insertHistory (ledger : List HistoryRow) (row : HistoryRow) : List HistoryRow :=
  ledger ++ [row]

/-- The JS whitespace set (WhiteSpace and LineTerminator code points), as
used by `String.prototype.trim()` and by string-to-number coercion: TAB, LF,
VT, FF, CR, SP, NBSP, Ogham space, the Zs block 2000–200A, LS, PS, NNBSP,
MMSP, ideographic space, and ZWNBSP. -/
def jsIsSpace (c : Char) : Bool :=
  decide ((9 ≤ c.toNat ∧ c.toNat ≤ 13) ∨ c.toNat = 32 ∨ c.toNat = 160 ∨
    c.toNat = 5760 ∨ (8192 ≤ c.toNat ∧ c.toNat ≤ 8202) ∨ c.toNat = 8232 ∨
    c.toNat = 8233 ∨ c.toNat = 8239 ∨ c.toNat = 8287 ∨ c.toNat = 12288 ∨
    c.toNat = 65279)

/-- Strip leading and trailing JS whitespace from a character list. -/
def jsTrimData (l : List Char) : List Char :=
  ((l.dropWhile jsIsSpace).reverse.dropWhile jsIsSpace).reverse

/-- JS `String.prototype.trim()`: strip leading and trailing whitespace. -/
def jsTrim (s : String) : String :=
  String.mk (jsTrimData s.data)

/-- Allowlist check, from `isAllowedUserKey`: the stored value must trim to
`"1"`.  A `videoOp` value never trims to `"1"` (it prints as a JSON object),
so it is mapped to `false`. -/
def isAllowedUserKey (kv : KvStore) (userKey : String) : Bool :=
  if userKey = "" then false
  else
    match kvGet kv userKey with
    | some (.raw s) => jsTrim s == "1"
    | some (.videoOp _ _) => false
    | none => false

/-- Session validation, from `requireAuth`.  The `cookie` argument is the
value of the `bp_session` cookie as extracted by `getCookie` (`none` when the
header is absent or carries no such cookie; `getCookie` cannot return a
missing-name hit, and an empty value is rejected by the `!sessionId` guard).
Returns the authenticated `(userKey, sessionId)` pair, if any, together with
the sessions table after the opportunistic expired-row cleanup. -/
def requireAuth (cookie : Option String) (kv : KvStore)
    (sessions : List SessionRow) (now : Nat) :
    Option (String × String) × List SessionRow :=
  match cookie with
  | none => (none, sessions)
  | some sid =>
    if sid = "" then (none, sessions)
    else
      match sessions.find? (fun s => s.session_id == sid) with
      | none => (none, sessions)
      | some row =>
        if row.expires_at ≤ now then
          (none, sessions.filter (fun s => !(s.session_id == sid)))
        else if isAllowedUserKey kv row.user_key then
          (some (row.user_key, sid), sessions)
        else (none, sessions)

/-- Uniform route response, mirroring the JSON bodies `routeApi` produces.
`error s m` is `errorJson(s, m)`; the `ok…` constructors carry exactly the
fields of the corresponding success bodies that the routes set. -/
inductive ApiResponse
| error (status : Nat) (message : String)
| okDeleted
| okMedia (mimeType content : String)
| okPage (items : List HistoryRow) (nextCursor : Option String)
| okVideoPending
| okVideoError (message : String)
| okVideoDone (mediaId mediaUrl mimeType : String)
deriving DecidableEq

/-- Media URL builder, from `mediaUrl` (`encodeURIComponent` is the identity
on the UUID-shaped ids the worker generates). -/
def mediaUrlOf (id : String) : String := "/api/media/" ++ id

/-- DELETE `/api/history/{id}` handler body (routes.ts lines 326–333), after
authentication: read-then-delete via the ledger, then check ownership, then
delete the blob.  Returns the response and the resulting ledger and media
store. -/
def routeHistoryDelete (ledger : List HistoryRow) (media : MediaStore)
    (userKey : String) (id : String) :
    ApiResponse × List HistoryRow × MediaStore :=
  if id = "" then (.error 400 "Missing id", ledger, media)
  else
    match deleteHistoryById ledger id with
    | (none, ledger') => (.error 404 "Not found", ledger', media)
    | (some row, ledger') =>
      if row.user_key ≠ userKey then (.error 404 "Not found", ledger', media)
      else (.okDeleted, ledger', mediaDelete media row.r2_key)

/-- GET `/api/media/{id}` handler body (routes.ts lines 336–377), after
authentication.  The edge-cache and ETag/304 machinery sits strictly after
the ownership check and only varies the transport of the same 200 body, so
the response is modelled by its status and body fields.  State is not
modified by this route. -/
def routeMediaStream (ledger : List HistoryRow) (media : MediaStore)
    (userKey : String) (id : String) : ApiResponse :=
  if id = "" then .error 400 "Missing id"
  else
    match getHistoryById ledger id with
    | none => .error 404 "Not found"
    | some row =>
      if row.user_key ≠ userKey then .error 404 "Not found"
      else
        match mediaGet media row.r2_key with
        | none => .error 404 "Not found"
        | some (content, _) => .okMedia row.mime_type content

/-- Image reference supplied by the client (routes.ts `ClientImageRef`). -/
inductive ClientImageRef
| dataUrl (dataUrl : String) (mimeType : String)
| mediaId (mediaId : String)
deriving DecidableEq

/-- Characters strictly after the first occurrence of `c`, if any. -/
def dropThroughFirst (c : Char) : List Char → Option (List Char)
  | [] => none
  | x :: xs => if x = c then some xs else dropThroughFirst c xs

/-- From `dataUrlToBase64`: everything after the first comma, or the whole
string when no comma occurs. -/
def dataUrlToBase64 (s : String) : String :=
  match dropThroughFirst ',' s.data with
  | none => s
  | some rest => String.mk rest

/-- From `clientRefToBase64`: resolve a client image reference to
`(base64, mimeType)`.  `Except.error` models the thrown `Error`; re-encoding
the fetched blob is the identity under the base64 representation of blobs. -/
def clientRefToBase64 (ledger : List HistoryRow) (media : MediaStore)
    (userKey : String) : ClientImageRef → Except String (String × String)
  | .dataUrl d m => .ok (dataUrlToBase64 d, m)
  | .mediaId mid =>
    match getHistoryById ledger mid with
    | none => .error "Media not found"
    | some row =>
      if row.user_key ≠ userKey then .error "Media not found"
      else
        match mediaGet media row.r2_key with
        | none => .error "Media not found"
        | some (content, _) => .ok (content, row.mime_type)

/-- Normalized upstream image result (gemini.ts `extractImageResponse`):
all three fields are string-or-null. -/
structure GenResult where
  newImageBase64 : Option String
  newImageMimeType : Option String
  textResponse : Option String
deriving DecidableEq

/-- Outcome of one upstream image call (`geminiGenerateImageFromText` or
`geminiEditImage`): a normalized result, or a raised exception carrying the
error message. -/
inductive GenOutcome
| ok (res : GenResult)
| raise (msg : String)
deriving DecidableEq

def GenOutcome.isRaise : GenOutcome → Bool
  | .raise _ => true
  | .ok _ => false

/-- JS falsiness `!x` of a string-or-null value: null or the empty string. -/
def falsyStr : Option String → Bool
  | none => true
  | some s => s == ""

/-- JS nullish coalescing `a ?? b` on string-or-null values. -/
def jsNullish (a b : Option String) : Option String :=
  match a with
  | some t => some t
  | none => b

/-- From `result.textResponse ? JSON.stringify(\x7btextResponse\x7d) : null`:
truthiness-guarded JSON note (the stringify escaping of the note itself is
elided; no claim inspects the wrapper). -/
def extraJsonFor (t : Option String) : Option String :=
  match t with
  | some s => if s = "" then none else some ("\x7b\"textResponse\":\"" ++ s ++ "\"\x7d")
  | none => none

/-- File extension for a mime type, from `extFromMime`. -/
def extFromMime (mime : String) : String :=
  if mime = "image/png" then "png"
  else if mime = "image/jpeg" then "jpg"
  else if mime = "image/webp" then "webp"
  else if mime = "video/mp4" then "mp4"
  else "bin"

/-- Blob key derivation `$\x7buserKey\x7d/$\x7bid\x7d.$\x7bext\x7d` used by
both generation loops and the video finalizer. -/
def r2KeyFor (userKey id mime : String) : String :=
  userKey ++ "/" ++ id ++ "." ++ extFromMime mime

/-- SSE events emitted by the streaming branch of POST /api/generate/image,
with the payload fields the code sends. -/
inductive Ev
| start (requested : Nat)
| item (mediaId mediaUrl mimeType : String) (textResponse : Option String) (index : Nat)
| skip (index : Nat) (textResponse : Option String)
| done (ok : Bool) (produced : Nat) (textResponse : Option String)
| error (message : String)
deriving DecidableEq

/-- One step of a request's timeline, in program order: an upstream call, a
storage side effect, or an emitted SSE event. -/
inductive Step
| callUpstream (index : Nat)
| r2Put (key content contentType : String)
| dbInsert (row : HistoryRow)
| kvRemove (key : String)
| ev (e : Ev)
deriving DecidableEq

def Step.evOf : Step → Option Ev
  | .ev e => some e
  | _ => none

def Ev.isItem : Ev → Bool
  | .item _ _ _ _ _ => true
  | _ => false

/-- Iteration index carried by an `item` or `skip` event. -/
def Ev.index? : Ev → Option Nat
  | .item _ _ _ _ i => some i
  | .skip i _ => some i
  | _ => none

/-- Mutable state touched by the generation routes. -/
structure OrchState where
  ledger : List HistoryRow
  media : MediaStore
deriving DecidableEq

/-- History row built by a successful generation iteration `i` (both loops
build the identical record). -/
def imageRowFor (ids : Nat → String) (clock : Nat → Nat)
    (userKey prompt : String) (res : GenResult) (i : Nat) : HistoryRow :=
  { id := ids i, user_key := userKey, kind := "image", prompt := prompt,
    created_at := clock i,
    r2_key := r2KeyFor userKey (ids i) (res.newImageMimeType.getD ""),
    mime_type := res.newImageMimeType.getD "",
    extra_json := extraJsonFor res.textResponse }

/-- Result of the streaming iteration loop. -/
structure LoopOut where
  timeline : List Step
  produced : Nat
  lastText : Option String
  st : OrchState
  errored : Bool
deriving DecidableEq

/-- Streaming iteration loop of POST /api/generate/image (routes.ts lines
137–181): iteration `i` calls the upstream oracle; a raised exception is
caught by the surrounding try/catch which emits a terminal `error` event and
stops; an empty result emits `skip` and continues; otherwise the blob is
written, the row inserted, and `item` emitted.  `ids` and `clock` supply
`crypto.randomUUID()` and `Date.now()` per iteration. -/
def runStreamIters (oracle : Nat → GenOutcome) (ids : Nat → String)
    (clock : Nat → Nat) (userKey prompt : String) :
    Nat → Nat → Nat → Option String → OrchState → LoopOut
  | _, 0, produced, lastText, st => ⟨[], produced, lastText, st, false⟩
  | i, n+1, produced, lastText, st =>
    match oracle i with
    | .raise msg => ⟨[.callUpstream i, .ev (.error msg)], produced, lastText, st, true⟩
    | .ok res =>
      let lastText' := jsNullish res.textResponse lastText
      if falsyStr res.newImageBase64 || falsyStr res.newImageMimeType then
        let rest := runStreamIters oracle ids clock userKey prompt (i+1) n produced lastText' st
        ⟨.callUpstream i :: .ev (.skip i res.textResponse) :: rest.timeline,
         rest.produced, rest.lastText, rest.st, rest.errored⟩
      else
        let content := res.newImageBase64.getD ""
        let row := imageRowFor ids clock userKey prompt res i
        let st' : OrchState :=
          ⟨insertHistory st.ledger row, mediaPut st.media row.r2_key content row.mime_type⟩
        let rest := runStreamIters oracle ids clock userKey prompt (i+1) n (produced+1) lastText' st'
        ⟨.callUpstream i :: .r2Put row.r2_key content row.mime_type :: .dbInsert row ::
           .ev (.item row.id (mediaUrlOf row.id) row.mime_type res.textResponse i) :: rest.timeline,
         rest.produced, rest.lastText, rest.st, rest.errored⟩

/-- Count clamp of POST /api/generate/image (routes.ts line 104):
`Math.max(1, Math.min(5, Math.floor(count)))` on an integral request. -/
def clampCount (c : Int) : Nat := (max 1 (min 5 c)).toNat

/-- Timeline contribution of streaming iteration `i` (used to characterize
`runStreamIters`): upstream call, then either the terminal error, the skip
event, or the put/insert/item triple. -/
def iterChunk (oracle : Nat → GenOutcome) (ids : Nat → String)
    (clock : Nat → Nat) (userKey prompt : String) (i : Nat) : List Step :=
  match oracle i with
  | .raise msg => [.callUpstream i, .ev (.error msg)]
  | .ok res =>
    if falsyStr res.newImageBase64 || falsyStr res.newImageMimeType then
      [.callUpstream i, .ev (.skip i res.textResponse)]
    else
      let content := res.newImageBase64.getD ""
      let row := imageRowFor ids clock userKey prompt res i
      [.callUpstream i, .r2Put row.r2_key content row.mime_type, .dbInsert row,
       .ev (.item row.id (mediaUrlOf row.id) row.mime_type res.textResponse i)]

/-- The single event emitted by iteration `i`: `skip` on an empty result,
`item` on success, the terminal `error` on a raise. -/
def iterEv (oracle : Nat → GenOutcome) (ids : Nat → String) (i : Nat) : Ev :=
  match oracle i with
  | .raise msg => .error msg
  | .ok res =>
    if falsyStr res.newImageBase64 || falsyStr res.newImageMimeType then
      .skip i res.textResponse
    else
      .item (ids i) (mediaUrlOf (ids i)) (res.newImageMimeType.getD "")
        res.textResponse i

/-- Streaming HTTP response: the status the `Response` is constructed with,
the full timeline (whose events form the SSE body), and the final state. -/
structure StreamResp where
  status : Nat
  timeline : List Step
  st : OrchState
deriving DecidableEq

def streamEvents (t : List Step) : List Ev := t.filterMap Step.evOf

/-- Streaming branch of POST /api/generate/image (routes.ts lines 117–192):
the `Response` is created with status 200 unconditionally; the body stream
emits `start`, the per-iteration events, then `done` — unless an iteration
raised, in which case the catch already emitted the terminal `error`. -/
def routeGenerateImageStream (oracle : Nat → GenOutcome) (ids : Nat → String)
    (clock : Nat → Nat) (userKey prompt : String) (count : Nat)
    (st : OrchState) : StreamResp :=
  let o := runStreamIters oracle ids clock userKey prompt 0 count 0 none st
  { status := 200,
    timeline := .ev (.start count) :: o.timeline ++
      (if o.errored then [] else [.ev (.done (decide (0 < o.produced)) o.produced o.lastText)]),
    st := o.st }

/-- Result of the non-streaming iteration loop: collected items (mediaId,
mediaUrl, mimeType, textResponse), or the exception that aborted the batch. -/
structure BatchOut where
  timeline : List Step
  items : List (String × String × String × Option String)
  lastText : Option String
  st : OrchState
  raised : Option String
deriving DecidableEq

/-- Non-streaming iteration loop of POST /api/generate/image (routes.ts lines
199–238): same persistence per iteration, but a raised exception propagates
and aborts the whole batch, and empty results are silently omitted. -/
def runBatchIters (oracle : Nat → GenOutcome) (ids : Nat → String)
    (clock : Nat → Nat) (userKey prompt : String) :
    Nat → Nat → Option String → OrchState → BatchOut
  | _, 0, lastText, st => ⟨[], [], lastText, st, none⟩
  | i, n+1, lastText, st =>
    match oracle i with
    | .raise msg => ⟨[.callUpstream i], [], lastText, st, some msg⟩
    | .ok res =>
      let lastText' := jsNullish res.textResponse lastText
      if falsyStr res.newImageBase64 || falsyStr res.newImageMimeType then
        let rest := runBatchIters oracle ids clock userKey prompt (i+1) n lastText' st
        ⟨.callUpstream i :: rest.timeline, rest.items, rest.lastText, rest.st, rest.raised⟩
      else
        let content := res.newImageBase64.getD ""
        let row := imageRowFor ids clock userKey prompt res i
        let st' : OrchState :=
          ⟨insertHistory st.ledger row, mediaPut st.media row.r2_key content row.mime_type⟩
        let rest := runBatchIters oracle ids clock userKey prompt (i+1) n lastText' st'
        ⟨.callUpstream i :: .r2Put row.r2_key content row.mime_type :: .dbInsert row :: rest.timeline,
         (row.id, mediaUrlOf row.id, row.mime_type, res.textResponse) :: rest.items,
         rest.lastText, rest.st, rest.raised⟩

/-- Provider view of a long-running video operation, from `geminiVideoStatus`
(`done`, `error?.message`, and the first generated sample's `video.uri`). -/
structure VideoPoll where
  done : Bool
  error : Option String
  outputUri : Option String
deriving DecidableEq

/-- Outcome of the `fetch(downloadLink)` download of the finished video. -/
inductive DownloadResult
| ok (content : String) (contentType : Option String)
| fail (statusText : String)
deriving DecidableEq

/-- Result of GET /api/video/status: response, final state, final KV, and the
timeline of storage side effects. -/
structure VideoRouteOut where
  resp : ApiResponse
  st : OrchState
  kv : KvStore
  timeline : List Step
deriving DecidableEq

/-- GET /api/video/status handler body (routes.ts lines 275–315), after
authentication.  A `raw` KV value at the `videoop:` key stands for an
allowlist value whose JSON parse lacks a matching `userKey`, so it fails the
ownership comparison exactly like a missing handle. -/
def routeVideoStatus (st : OrchState) (kv : KvStore) (userKey : String)
    (nameParam : Option String) (poll : VideoPoll) (download : DownloadResult)
    (newId : String) (now : Nat) : VideoRouteOut :=
  match nameParam with
  | none => ⟨.error 400 "Missing name", st, kv, []⟩
  | some name =>
    if name = "" then ⟨.error 400 "Missing name", st, kv, []⟩
    else
      match kvGet kv ("videoop:" ++ name) with
      | some (.videoOp opUserKey opPrompt) =>
        if opUserKey ≠ userKey then ⟨.error 404 "Operation not found", st, kv, []⟩
        else if !poll.done then ⟨.okVideoPending, st, kv, []⟩
        else
          match poll.error with
          | some msg => ⟨.okVideoError msg, st, kv, []⟩
          | none =>
            match poll.outputUri with
            | none => ⟨.error 500 "No download link found", st, kv, []⟩
            | some _ =>
              match download with
              | .fail stext =>
                ⟨.error 500 ("Failed to download video: " ++ stext), st, kv, []⟩
              | .ok content ctype =>
                let mime :=
                  match ctype with
                  | some s => if s = "" then "video/mp4" else s
                  | none => "video/mp4"
                let key := r2KeyFor userKey newId mime
                let row : HistoryRow :=
                  { id := newId, user_key := userKey, kind := "video",
                    prompt := opPrompt, created_at := now, r2_key := key,
                    mime_type := mime }
                ⟨.okVideoDone newId (mediaUrlOf newId) mime,
                 ⟨insertHistory st.ledger row, mediaPut st.media key content mime⟩,
                 kvDelete kv ("videoop:" ++ name),
                 [.r2Put key content mime, .dbInsert row,
                  .kvRemove ("videoop:" ++ name)]⟩
      | some (.raw _) => ⟨.error 404 "Operation not found", st, kv, []⟩
      | none => ⟨.error 404 "Operation not found", st, kv, []⟩

/-- Every ledger insert in the timeline is preceded by a media-store put of
the inserted row's blob key. -/
def putBeforeInsert (t : List Step) : Prop :=
  ∀ j r, t.get? j = some (.dbInsert r) →
    ∃ i c m, i < j ∧ t.get? i = some (.r2Put r.r2_key c m)

/-- Decimal digit to character. -/
def digitChar : Nat → Char
  | 0 => '0'
  | 1 => '1'
  | 2 => '2'
  | 3 => '3'
  | 4 => '4'
  | 5 => '5'
  | 6 => '6'
  | 7 => '7'
  | 8 => '8'
  | 9 => '9'
  | _ => 'x'

/-- Decimal rendering worker: most significant digits are peeled off by
division, accumulating from the right; `fuel` (any bound above `n`) makes the
recursion structural. -/
def natToCharsAux : Nat → Nat → List Char → List Char
  | 0, _, acc => acc
  | fuel+1, n, acc =>
    if n < 10 then digitChar n :: acc
    else natToCharsAux fuel (n / 10) (digitChar (n % 10) :: acc)

/-- Decimal rendering of a natural number, as JS template interpolation
`$\x7bn\x7d` renders an integral number. -/
def natToChars (n : Nat) : List Char := natToCharsAux (n+1) n []

/-- Character to decimal digit, if it is one. -/
def charDigit? (c : Char) : Option Nat :=
  if c = '0' then some 0
  else if c = '1' then some 1
  else if c = '2' then some 2
  else if c = '3' then some 3
  else if c = '4' then some 4
  else if c = '5' then some 5
  else if c = '6' then some 6
  else if c = '7' then some 7
  else if c = '8' then some 8
  else if c = '9' then some 9
  else none

/-- Value of a decimal digit string (most significant first). -/
def natFromDigits (l : List Char) : Nat :=
  l.foldl (fun a c => 10 * a + (charDigit? c).getD 0) 0

/-- Character to hexadecimal digit, if it is one. -/
def hexDigit? (c : Char) : Option Nat :=
  match charDigit? c with
  | some d => some d
  | none =>
    if c = 'a' ∨ c = 'A' then some 10
    else if c = 'b' ∨ c = 'B' then some 11
    else if c = 'c' ∨ c = 'C' then some 12
    else if c = 'd' ∨ c = 'D' then some 13
    else if c = 'e' ∨ c = 'E' then some 14
    else if c = 'f' ∨ c = 'F' then some 15
    else none

/-- Value of a nonempty digit string in the given radix (used for the
`0x`/`0o`/`0b` literals of JS string-to-number coercion); `none` when empty
or when some character is not a digit of that radix. -/
def radixNat? (base : Nat) (l : List Char) : Option Nat :=
  if l ≠ [] ∧ l.all (fun c => match hexDigit? c with
      | some d => decide (d < base)
      | none => false) then
    some (l.foldl (fun a c => base * a + (hexDigit? c).getD 0) 0)
  else none

/-- A finite JS number as coerced from a string, kept exact: the value is
`mant * 10 ^ exp10`.  (Hex, octal and binary literals are integers, so every
coercible string's exact value has this shape.) -/
structure JsNum where
  mant : Int
  exp10 : Int
deriving DecidableEq

/-- SQL comparison `n < v` of an integer column against a bound JS number,
the scale multiplied out. -/
def JsNum.gtNat (v : JsNum) (n : Nat) : Bool :=
  if 0 ≤ v.exp10 then decide ((n : Int) < v.mant * 10 ^ v.exp10.toNat)
  else decide ((n : Int) * 10 ^ (-v.exp10).toNat < v.mant)

/-- SQL comparison `n = v` of an integer column against a bound JS number,
the scale multiplied out. -/
def JsNum.eqNat (v : JsNum) (n : Nat) : Bool :=
  if 0 ≤ v.exp10 then decide ((n : Int) = v.mant * 10 ^ v.exp10.toNat)
  else decide ((n : Int) * 10 ^ (-v.exp10).toNat = v.mant)

/-- Optional sign prefix of a decimal or exponent literal: the sign and the
remaining characters. -/
def jsSign : List Char → Int × List Char
  | [] => (1, [])
  | c :: r => if c = '-' then (-1, r) else if c = '+' then (1, r) else (1, c :: r)

/-- Fraction part after the integer digits: when a dot follows, its digit
run and the remainder; otherwise no fraction. -/
def jsFracSplit : List Char → List Char × List Char
  | [] => ([], [])
  | c :: r =>
    if c = '.' then
      (r.takeWhile fun c2 => (charDigit? c2).isSome,
       r.dropWhile fun c2 => (charDigit? c2).isSome)
    else ([], c :: r)

/-- Exponent value after the `e`/`E` marker: optional sign then required
digits consuming the rest of the string; `none` when malformed. -/
def jsExpVal? (l : List Char) : Option Int :=
  if (jsSign l).2 ≠ [] ∧ (jsSign l).2.all (fun c => (charDigit? c).isSome) then
    some ((jsSign l).1 * (natFromDigits (jsSign l).2 : Int))
  else none

/-- StrDecimalLiteral of JS string-to-number coercion: optional sign, then
`Infinity` (not finite, so rejected) or digits with optional fraction and
exponent; at least one digit is required and the whole string must be
consumed. -/
def jsDecimal? (t : List Char) : Option JsNum :=
  let sgn := (jsSign t).1
  let u := (jsSign t).2
  if u = ['I', 'n', 'f', 'i', 'n', 'i', 't', 'y'] then none
  else
    let ip := u.takeWhile fun c => (charDigit? c).isSome
    let r1 := u.dropWhile fun c => (charDigit? c).isSome
    let fp := (jsFracSplit r1).1
    let r2 := (jsFracSplit r1).2
    if ip = [] ∧ fp = [] then none
    else
      match r2 with
      | [] => some ⟨sgn * (natFromDigits (ip ++ fp) : Int), -(fp.length : Int)⟩
      | e :: r3 =>
        if e = 'e' ∨ e = 'E' then
          match jsExpVal? r3 with
          | some ev => some ⟨sgn * (natFromDigits (ip ++ fp) : Int),
              ev - (fp.length : Int)⟩
          | none => none
        else none

/-- StrNumericLiteral of JS string-to-number coercion, on an already trimmed
character list: empty coerces to 0, `0x`/`0o`/`0b` open radix literals
(which admit no sign), anything else is a decimal literal. -/
def jsStrNumeric? (t : List Char) : Option JsNum :=
  if t = [] then some ⟨0, 0⟩
  else
    match t with
    | c0 :: c1 :: rest =>
      if c0 = '0' ∧ (c1 = 'x' ∨ c1 = 'X') then
        (radixNat? 16 rest).map (fun m => ⟨(m : Int), 0⟩)
      else if c0 = '0' ∧ (c1 = 'o' ∨ c1 = 'O') then
        (radixNat? 8 rest).map (fun m => ⟨(m : Int), 0⟩)
      else if c0 = '0' ∧ (c1 = 'b' ∨ c1 = 'B') then
        (radixNat? 2 rest).map (fun m => ⟨(m : Int), 0⟩)
      else jsDecimal? (c0 :: c1 :: rest)
    | l => jsDecimal? l

/-- Model of `Number(ts)` followed by the `Number.isFinite` check: trim JS
whitespace, then parse the string-numeric grammar (empty string is 0; signs,
fractions, exponents and hex/octal/binary literals are accepted; `Infinity`
and non-grammar strings are not finite).  The coerced value is kept exact
rather than rounded to an IEEE754 double: rounding and overflow to
`Infinity` perturb a coercion only beyond 1e308 or at 17+ significant
digits, far outside the range of the millisecond timestamps the `created_at`
column and its cursors hold. -/
def jsFiniteNumber? (s : String) : Option JsNum :=
  jsStrNumeric? (jsTrimData s.data)

/-- JS `String.prototype.split(":")` on the character list of a string. -/
def splitOnColon : List Char → List (List Char)
  | [] => [[]]
  | c :: cs =>
    if c = ':' then [] :: splitOnColon cs
    else
      match splitOnColon cs with
      | [] => [[c]]
      | p :: ps => (c :: p) :: ps

/-- Cursor issued by `listHistory`: `$\x7bcreated_at\x7d:$\x7bid\x7d` of the
last item of the page. -/
def encodeCursorRow (r : HistoryRow) : String :=
  String.mk (natToChars r.created_at ++ ':' :: r.id.data)

/-- Cursor acceptance of `listHistory`: split on `:`, destructure the first
two parts as `[ts, id]`, and accept when `Number(ts)` is finite and `id` is
truthy (present and nonempty) — the guard
`Number.isFinite(parsed) && id`.  A missing second part (`id` undefined), an
empty second part, or a non-coercible timestamp part leaves both cursor
variables null, selecting the cursor-free statement. -/
def parseCursor (s : String) : Option (JsNum × String) :=
  match splitOnColon s.data with
  | ts :: id :: _ =>
    match jsFiniteNumber? (String.mk ts) with
    | some v => if id = [] then none else some (v, String.mk id)
    | none => none
  | _ => none

/-- Cursor predicate of the keyset query:
`created_at < ? OR (created_at = ? AND id < ?)`, the first two parameters
bound to the coerced timestamp.  SQLite compares TEXT by bytewise memcmp,
which on UTF-8 agrees with the code-point lexicographic order of the
character lists compared here (and with `String`'s order). -/
def afterCursor (c : JsNum × String) (r : HistoryRow) : Bool :=
  c.1.gtNat r.created_at || (c.1.eqNat r.created_at && decide (r.id.data < c.2.data))

/-- Sort key of `ORDER BY created_at DESC, id DESC`: the lexicographic
`(created_at, id)` pair.  SQLite compares TEXT by bytewise memcmp, which on
UTF-8 agrees with the code-point lexicographic order used here. -/
def rowKey (r : HistoryRow) : Lex (Nat × String) := toLex (r.created_at, r.id)

/-- Row `a` may precede row `b` in the descending output order. -/
def rowOrder (a b : HistoryRow) : Prop := rowKey b ≤ rowKey a

instance : DecidableRel rowOrder := fun a b =>
  decidable_of_iff
    (b.created_at < a.created_at ∨ (b.created_at = a.created_at ∧
      (b.id.data < a.id.data ∨ b.id = a.id)))
    (by
      unfold rowOrder rowKey
      rw [le_iff_lt_or_eq, Prod.Lex.lt_iff]
      constructor
      · rintro (h | ⟨h1, (h2 | h2)⟩)
        · exact Or.inl (Or.inl h)
        · exact Or.inl (Or.inr ⟨h1, String.lt_iff_toList_lt.mpr h2⟩)
        · exact Or.inr (toLex_inj.mpr (Prod.ext h1 h2))
      · rintro ((h | ⟨h1, h2⟩) | heq)
        · exact Or.inl h
        · exact Or.inr ⟨h1, Or.inl (String.lt_iff_toList_lt.mp h2)⟩
        · have hp := toLex_inj.mp heq
          exact Or.inr ⟨congrArg Prod.fst hp, Or.inr (congrArg Prod.snd hp)⟩)

instance : IsTotal HistoryRow rowOrder :=
  ⟨fun a b => le_total (rowKey b) (rowKey a)⟩

instance : IsTrans HistoryRow rowOrder :=
  ⟨fun _ _ _ h1 h2 => le_trans h2 h1⟩

/-- Page returned by `listHistory`. -/
structure HistoryListPage where
  items : List HistoryRow
  nextCursor : Option String
deriving DecidableEq

/-- The clamp `Math.max(1, Math.min(50, limit))` of `listHistory`. -/
def safeLimitOf (limit : Int) : Nat := (max 1 (min 50 limit)).toNat

/-- The owner's rows in the query's `ORDER BY created_at DESC, id DESC`
order (`WHERE user_key = ?` plus the sort, before cursor filtering and
LIMIT). -/
def sortedUserRows (ledger : List HistoryRow) (userKey : String) : List HistoryRow :=
  List.insertionSort rowOrder (ledger.filter (fun r => r.user_key == userKey))

/-- Ownership-scoped cursor-paginated listing, from `listHistory`: clamp the
limit to [1, 50], parse the cursor (an unparsable one selects the
cursor-free statement), run the keyset query fetching `limit + 1` rows, and
derive `items` and `nextCursor`.  The SQL statement is modelled as: rows of
the owner, in `(created_at DESC, id DESC)` order, those strictly after the
cursor, truncated by LIMIT. -/
def listHistory (ledger : List HistoryRow) (userKey : String) (limit : Int)
    (cursor : Option String) : HistoryListPage :=
  let safeLimit : Nat := safeLimitOf limit
  let parsed : Option (JsNum × String) := cursor.bind parseCursor
  let base := sortedUserRows ledger userKey
  let filtered :=
    match parsed with
    | some c => base.filter (afterCursor c)
    | none => base
  let rows := filtered.take (safeLimit + 1)
  let hasMore := decide (safeLimit < rows.length)
  let items := rows.take safeLimit
  let nextCursor := if hasMore then items.getLast?.map encodeCursorRow else none
  ⟨items, nextCursor⟩

/-- GET /api/history handler body (routes.ts lines 318–323), after
authentication: pass limit and cursor through to `listHistory` and wrap the
page in a 200 body.  `limit` is `Number(searchParams.get("limit") ?? "20")`,
modelled as the integral value it denotes. -/
def routeHistoryList (ledger : List HistoryRow) (userKey : String)
    (limit : Int) (cursor : Option String) : ApiResponse :=
  let page := listHistory ledger userKey limit cursor
  .okPage page.items page.nextCursor

/-- Repeatedly list, feeding each returned `nextCursor` back, until a page
with a null cursor (fuel bounds the recursion). -/
def listPagesFrom (ledger : List HistoryRow) (userKey : String) (limit : Int) :
    Option String → Nat → List HistoryListPage
  | _, 0 => []
  | cursor, fuel+1 =>
    let p := listHistory ledger userKey limit cursor
    match p.nextCursor with
    | none => [p]
    | some c => p :: listPagesFrom ledger userKey limit (some c) fuel

/-- Full pagination run starting from no cursor. -/
def listPages (ledger : List HistoryRow) (userKey : String) (limit : Int)
    (fuel : Nat) : List HistoryListPage :=
  listPagesFrom ledger userKey limit none fuel

/-- Concrete oracle for counterexample runs: the first upstream call raises,
every later call succeeds with an image. -/
def failingOracle : Nat → GenOutcome := fun i =>
  if i = 0 then .raise "boom" else .ok ⟨some "QQ==", some "image/png", none⟩

/-- Concrete id supply for counterexample runs. -/
def constIds : Nat → String := fun i => String.mk ('g' :: natToChars i)

/-- Concrete clock for counterexample runs. -/
def constClock : Nat → Nat := fun i => 1000 + i

/-- Concrete oracle matching the spec's worked example: iteration 1 returns
an empty result, every other iteration produces an image. -/
def mixedOracle : Nat → GenOutcome := fun i =>
  if i = 1 then .ok ⟨none, none, some "declined"⟩
  else .ok ⟨some "QQ==", some "image/png", none⟩

/-- Every `item` event in the timeline is preceded by the ledger insert of
the row whose id it announces. -/
def itemAfterInsert (t : List Step) : Prop :=
  ∀ p mid u m tr ix, t.get? p = some (.ev (.item mid u m tr ix)) →
    ∃ q row, q < p ∧ t.get? q = some (.dbInsert row) ∧ row.id = mid

/-- Concrete three-row ledger for pagination runs. -/
def sampleLedger : List HistoryRow :=
  [⟨"a", "u", "image", "p", 30, "u/a.png", "image/png", none, none, none⟩,
   ⟨"b", "u", "image", "p", 20, "u/b.png", "image/png", none, none, none⟩,
   ⟨"c", "u", "image", "p", 10, "u/c.png", "image/png", none, none, none⟩]

/-! ## Theorems -/

/-- C1: the code violates the claim.  On DELETE /api/history/r1 by
authenticated user bob, where r1 is owned by alice, the handler responds
404 Not Found — but `deleteHistoryById` ran before the ownership comparison,
so alice's ledger row is already gone (the ledger is not left unchanged, and
the record is no longer retrievable by its owner); only the blob survives,
orphaned. -/
theorem history_delete_foreign_removes_row :
    (routeHistoryDelete
        [⟨"r1", "alice", "image", "p", 5, "alice/r1.png", "image/png", none, none, none⟩]
        [("alice/r1.png", "BLOB", "image/png")] "bob" "r1").1 =
      .error 404 "Not found" ∧
    (routeHistoryDelete
        [⟨"r1", "alice", "image", "p", 5, "alice/r1.png", "image/png", none, none, none⟩]
        [("alice/r1.png", "BLOB", "image/png")] "bob" "r1").2.1 = [] ∧
    getHistoryById
      (routeHistoryDelete
        [⟨"r1", "alice", "image", "p", 5, "alice/r1.png", "image/png", none, none, none⟩]
        [("alice/r1.png", "BLOB", "image/png")] "bob" "r1").2.1 "r1" = none ∧
    (routeHistoryDelete
        [⟨"r1", "alice", "image", "p", 5, "alice/r1.png", "image/png", none, none, none⟩]
        [("alice/r1.png", "BLOB", "image/png")] "bob" "r1").2.2 =
      [("alice/r1.png", "BLOB", "image/png")] := by
  decide

/-- C5: `requireAuth` authenticates exactly when the request carries a
session cookie whose row exists, whose expiry lies strictly in the future,
and whose user key is still enabled in the allowlist, returning that row's
`(userKey, sessionId)`; in the expired case the session row is deleted during
the same check. -/
theorem requireAuth_spec (cookie : Option String) (kv : KvStore)
    (sessions : List SessionRow) (now : Nat) :
    (∀ u sid,
      (requireAuth cookie kv sessions now).1 = some (u, sid) ↔
        cookie = some sid ∧ sid ≠ "" ∧
        ∃ row, sessions.find? (fun s => s.session_id == sid) = some row ∧
          row.user_key = u ∧ now < row.expires_at ∧
          isAllowedUserKey kv row.user_key = true) ∧
    (∀ sid row, cookie = some sid → sid ≠ "" →
      sessions.find? (fun s => s.session_id == sid) = some row →
      row.expires_at ≤ now →
      (requireAuth cookie kv sessions now).1 = none ∧
      (requireAuth cookie kv sessions now).2 =
        sessions.filter (fun s => !(s.session_id == sid))) := by
  constructor
  · intro u sid
    constructor
    · intro h
      cases cookie with
      | none => simp [requireAuth] at h
      | some c =>
        by_cases hc : c = ""
        · simp [requireAuth, hc] at h
        · cases hfind : sessions.find? (fun s => s.session_id == c) with
          | none => simp [requireAuth, hc, hfind] at h
          | some row =>
            by_cases hexp : row.expires_at ≤ now
            · simp [requireAuth, hc, hfind, hexp] at h
            · by_cases hal : isAllowedUserKey kv row.user_key
              · simp [requireAuth, hc, hfind, hexp, hal] at h
                obtain ⟨h1, h2⟩ := h
                subst h2
                exact ⟨rfl, hc, row, hfind, h1.symm ▸ rfl, Nat.lt_of_not_le hexp, hal⟩
              · simp [requireAuth, hc, hfind, hexp, hal] at h
    · rintro ⟨hck, hsid, row, hfind, hu, hlt, hal⟩
      subst hck
      subst hu
      simp [requireAuth, hsid, hfind, Nat.not_le.mpr hlt, hal]
  · intro sid row hck hsid hfind hexp
    subst hck
    simp [requireAuth, hsid, hfind, hexp]

/-- Concrete instantiation of `requireAuth_spec`: a fresh session for an
enabled user authenticates; the same session checked after expiry fails and
its row is removed. -/
theorem requireAuth_spec_witness :
    (requireAuth (some "s1") [("alice", .raw "1")] [⟨"s1", "alice", 0, 100⟩] 50).1 =
      some ("alice", "s1") ∧
    (requireAuth (some "s1") [("alice", .raw "1")] [⟨"s1", "alice", 0, 100⟩] 100).1 = none ∧
    (requireAuth (some "s1") [("alice", .raw "1")] [⟨"s1", "alice", 0, 100⟩] 100).2 = [] := by
  refine ⟨?_, ?_, ?_⟩
  · exact ((requireAuth_spec (some "s1") [("alice", .raw "1")]
      [⟨"s1", "alice", 0, 100⟩] 50).1 "alice" "s1").mpr
      ⟨rfl, by decide, ⟨"s1", "alice", 0, 100⟩, rfl, rfl, by decide, by decide⟩
  · exact ((requireAuth_spec (some "s1") [("alice", .raw "1")]
      [⟨"s1", "alice", 0, 100⟩] 100).2 "s1" ⟨"s1", "alice", 0, 100⟩ rfl
      (by decide) rfl (by decide)).1
  · exact ((requireAuth_spec (some "s1") [("alice", .raw "1")]
      [⟨"s1", "alice", 0, 100⟩] 100).2 "s1" ⟨"s1", "alice", 0, 100⟩ rfl
      (by decide) rfl (by decide)).2.trans (by decide)

/-- C6: for the ledger lookup path (`clientRefToBase64`, the worker's
`getById` consumer), the DELETE handler, and the media-stream handler, an id
owned by another user draws the very same response as an id that does not
exist: the constant 404 "Not found" (resp. the thrown "Media not found"), so
the two cases are indistinguishable to the caller. -/
theorem foreign_or_missing_id_not_found (ledger : List HistoryRow)
    (media : MediaStore) (userKey id : String) (hid : id ≠ "")
    (hown : ∀ r, getHistoryById ledger id = some r → r.user_key ≠ userKey) :
    (routeHistoryDelete ledger media userKey id).1 = .error 404 "Not found" ∧
    routeMediaStream ledger media userKey id = .error 404 "Not found" ∧
    clientRefToBase64 ledger media userKey (.mediaId id) =
      .error "Media not found" := by
  cases hfind : getHistoryById ledger id with
  | none =>
    refine ⟨?_, ?_, ?_⟩ <;>
      simp [routeHistoryDelete, routeMediaStream, clientRefToBase64,
        deleteHistoryById, hid, hfind]
  | some r =>
    have hr := hown r hfind
    refine ⟨?_, ?_, ?_⟩ <;>
      simp [routeHistoryDelete, routeMediaStream, clientRefToBase64,
        deleteHistoryById, hid, hfind, hr]

/-- Concrete instantiation of `foreign_or_missing_id_not_found`: bob probing
alice's record r1. -/
theorem foreign_or_missing_id_not_found_witness :
    (routeHistoryDelete
        [⟨"r1", "alice", "image", "p", 5, "alice/r1.png", "image/png", none, none, none⟩]
        [] "bob" "r1").1 = .error 404 "Not found" ∧
    routeMediaStream
        [⟨"r1", "alice", "image", "p", 5, "alice/r1.png", "image/png", none, none, none⟩]
        [] "bob" "r1" = .error 404 "Not found" ∧
    clientRefToBase64
        [⟨"r1", "alice", "image", "p", 5, "alice/r1.png", "image/png", none, none, none⟩]
        [] "bob" (.mediaId "r1") = .error "Media not found" :=
  foreign_or_missing_id_not_found _ _ "bob" "r1" (by decide)
    (fun r h => by
      rw [(rfl : getHistoryById
        [⟨"r1", "alice", "image", "p", 5, "alice/r1.png", "image/png", none, none, none⟩]
        "r1" = some ⟨"r1", "alice", "image", "p", 5, "alice/r1.png", "image/png", none, none, none⟩)] at h
      injection h with h'
      subst h'
      decide)

/-- C9: the code violates the claim.  A history-list request whose cursor is
present but malformed ("garbage") does not fail with an InvalidInput error:
the handler returns a 200 page (here the owner's full first page). -/
theorem malformed_cursor_returns_page :
    routeHistoryList
        [⟨"c1", "alice", "image", "p", 5, "alice/c1.png", "image/png", none, none, none⟩]
        "alice" 20 (some "garbage") =
      .okPage [⟨"c1", "alice", "image", "p", 5, "alice/c1.png", "image/png", none, none, none⟩]
        none ∧
    ∀ s m,
      routeHistoryList
        [⟨"c1", "alice", "image", "p", 5, "alice/c1.png", "image/png", none, none, none⟩]
        "alice" 20 (some "garbage") ≠ .error s m := by
  have h1 : routeHistoryList
      [⟨"c1", "alice", "image", "p", 5, "alice/c1.png", "image/png", none, none, none⟩]
      "alice" 20 (some "garbage") =
      .okPage [⟨"c1", "alice", "image", "p", 5, "alice/c1.png", "image/png", none, none, none⟩]
        none := by decide
  exact ⟨h1, fun s m h => by rw [h1] at h; exact ApiResponse.noConfusion h⟩

/-- C9 (amended): a present-but-malformed cursor never yields an
InvalidInput error — the handler always answers with an ordinary page.  A
cursor rejected by the guard `Number.isFinite(Number(ts)) && id` (its part
before the first colon does not coerce to a finite JS number, or it lacks a
nonempty second part) is silently ignored: the request behaves exactly as if
no cursor had been supplied.  A cursor the guard accepts — including
malformed-looking hex, fractional, signed, exponent or empty timestamp
parts — is instead applied as the keyset bound: every returned item then
satisfies the cursor predicate. -/
theorem malformed_cursor_ignored (ledger : List HistoryRow) (userKey : String)
    (limit : Int) (s : String) :
    (∃ p : HistoryListPage,
      routeHistoryList ledger userKey limit (some s) = .okPage p.items p.nextCursor) ∧
    (parseCursor s = none →
      routeHistoryList ledger userKey limit (some s) =
        routeHistoryList ledger userKey limit none) ∧
    (∀ c r, parseCursor s = some c →
      r ∈ (listHistory ledger userKey limit (some s)).items →
      afterCursor c r = true) := by
  refine ⟨⟨listHistory ledger userKey limit (some s), rfl⟩, ?_, ?_⟩
  · intro h
    simp [routeHistoryList, listHistory, Option.bind, h]
  · intro c r hc hr
    unfold listHistory at hr
    dsimp only at hr
    have hbind : (some s).bind parseCursor = some c := hc
    rw [hbind] at hr
    have h1 := List.take_subset _ _ (List.take_subset _ _ hr)
    exact (List.mem_filter.mp h1).2

/-- Concrete instantiation of `malformed_cursor_ignored`: the unparsable
cursor "garbage" yields the same 200 page as no cursor at all. -/
theorem malformed_cursor_ignored_witness :
    routeHistoryList
        [⟨"c1", "alice", "image", "p", 5, "alice/c1.png", "image/png", none, none, none⟩]
        "alice" 20 (some "garbage") =
      routeHistoryList
        [⟨"c1", "alice", "image", "p", 5, "alice/c1.png", "image/png", none, none, none⟩]
        "alice" 20 none :=
  (malformed_cursor_ignored _ "alice" 20 "garbage").2.1 (by decide)

theorem pbi_nil : putBeforeInsert [] := by
  intro j r h
  cases j <;> exact Option.noConfusion h

theorem pbi_cons (a : Step) (t : List Step) (ha : ∀ r, a ≠ .dbInsert r)
    (ht : putBeforeInsert t) : putBeforeInsert (a :: t) := by
  intro j r h
  cases j with
  | zero => exact absurd (Option.some.inj h) (ha r)
  | succ j' =>
    obtain ⟨i, c, m, hi, hg⟩ := ht j' r h
    exact ⟨i + 1, c, m, Nat.succ_lt_succ hi, hg⟩

theorem pbi_put_insert (key c0 m0 : String) (row : HistoryRow) (t : List Step)
    (hkey : row.r2_key = key) (ht : putBeforeInsert t) :
    putBeforeInsert (.r2Put key c0 m0 :: .dbInsert row :: t) := by
  intro j r h
  match j with
  | 0 => exact absurd (Option.some.inj h) (by intro hh; cases hh)
  | 1 =>
    have hr : row = r := by
      have := Option.some.inj h
      injection this
    subst hr
    subst hkey
    exact ⟨0, c0, m0, by omega, rfl⟩
  | (n + 2) =>
    obtain ⟨i, c, m, hi, hg⟩ := ht n r h
    exact ⟨i + 2, c, m, by omega, hg⟩

theorem pbi_append_of_no_insert (t l : List Step)
    (hl : ∀ r, Step.dbInsert r ∉ l) (ht : putBeforeInsert t) :
    putBeforeInsert (t ++ l) := by
  intro j r h
  by_cases hj : j < t.length
  · rw [List.get?_append hj] at h
    obtain ⟨i, c, m, hi, hg⟩ := ht j r h
    exact ⟨i, c, m, hi, by rw [List.get?_append (lt_trans hi hj)]; exact hg⟩
  · rw [List.get?_append_right (Nat.le_of_not_lt hj)] at h
    exact absurd (List.get?_mem h) (hl r)

theorem runStreamIters_pbi (oracle : Nat → GenOutcome) (ids : Nat → String)
    (clock : Nat → Nat) (userKey prompt : String) :
    ∀ n i produced lastText st,
      putBeforeInsert
        (runStreamIters oracle ids clock userKey prompt i n produced lastText st).timeline := by
  intro n
  induction n with
  | zero => intro i produced lastText st; exact pbi_nil
  | succ n ih =>
    intro i produced lastText st
    cases horacle : oracle i with
    | raise msg =>
      simp only [runStreamIters, horacle]
      exact pbi_cons _ _ (by intro r hh; cases hh)
        (pbi_cons _ _ (by intro r hh; cases hh) pbi_nil)
    | ok res =>
      by_cases hf : (falsyStr res.newImageBase64 || falsyStr res.newImageMimeType) = true
      · simp only [runStreamIters, horacle, hf, if_true]
        exact pbi_cons _ _ (by intro r hh; cases hh)
          (pbi_cons _ _ (by intro r hh; cases hh) (ih _ _ _ _))
      · simp only [runStreamIters, horacle, hf, if_false, Bool.false_eq_true]
        exact pbi_cons _ _ (by intro r hh; cases hh)
          (pbi_put_insert _ _ _ _ _ rfl
            (pbi_cons _ _ (by intro r hh; cases hh) (ih _ _ _ _)))

theorem runBatchIters_pbi (oracle : Nat → GenOutcome) (ids : Nat → String)
    (clock : Nat → Nat) (userKey prompt : String) :
    ∀ n i lastText st,
      putBeforeInsert
        (runBatchIters oracle ids clock userKey prompt i n lastText st).timeline := by
  intro n
  induction n with
  | zero => intro i lastText st; exact pbi_nil
  | succ n ih =>
    intro i lastText st
    cases horacle : oracle i with
    | raise msg =>
      simp only [runBatchIters, horacle]
      exact pbi_cons _ _ (by intro r hh; cases hh) pbi_nil
    | ok res =>
      by_cases hf : (falsyStr res.newImageBase64 || falsyStr res.newImageMimeType) = true
      · simp only [runBatchIters, horacle, hf, if_true]
        exact pbi_cons _ _ (by intro r hh; cases hh) (ih _ _ _)
      · simp only [runBatchIters, horacle, hf, if_false, Bool.false_eq_true]
        exact pbi_cons _ _ (by intro r hh; cases hh)
          (pbi_put_insert _ _ _ _ _ rfl (ih _ _ _))

theorem routeVideoStatus_pbi (st : OrchState) (kv : KvStore) (userKey : String)
    (nameParam : Option String) (poll : VideoPoll) (download : DownloadResult)
    (newId : String) (now : Nat) :
    putBeforeInsert
      (routeVideoStatus st kv userKey nameParam poll download newId now).timeline := by
  unfold routeVideoStatus
  cases nameParam with
  | none => exact pbi_nil
  | some name =>
    dsimp only
    repeat' split
    all_goals
      first
        | exact pbi_nil
        | exact pbi_put_insert _ _ _ _ _ rfl
            (pbi_cons _ _ (by intro r hh; cases hh) pbi_nil)

/-- C7: in every persistence path — streaming iteration, non-streaming
iteration, and video finalization — the media-store put of an artifact's blob
occurs strictly before the ledger insert of its HistoryRecord in the request
timeline, so no ledger row is ever created whose blob was not already
written. -/
theorem media_put_precedes_ledger_insert
    (oracle : Nat → GenOutcome) (ids : Nat → String) (clock : Nat → Nat)
    (userKey prompt : String) (count : Nat) (st : OrchState) (kv : KvStore)
    (nameParam : Option String) (poll : VideoPoll) (download : DownloadResult)
    (newId : String) (now : Nat) :
    putBeforeInsert
      (routeGenerateImageStream oracle ids clock userKey prompt count st).timeline ∧
    putBeforeInsert
      (runBatchIters oracle ids clock userKey prompt 0 count none st).timeline ∧
    putBeforeInsert
      (routeVideoStatus st kv userKey nameParam poll download newId now).timeline := by
  refine ⟨?_, runBatchIters_pbi oracle ids clock userKey prompt count 0 none st,
    routeVideoStatus_pbi st kv userKey nameParam poll download newId now⟩
  unfold routeGenerateImageStream
  refine pbi_cons _ _ (by intro r hh; cases hh) ?_
  refine pbi_append_of_no_insert _ _ ?_ (runStreamIters_pbi oracle ids clock userKey prompt _ _ _ _ _)
  intro r hr
  by_cases he :
    (runStreamIters oracle ids clock userKey prompt 0 count 0 none st).errored = true
  · simp [he] at hr
  · simp [he] at hr

theorem streamEvents_append (a b : List Step) :
    streamEvents (a ++ b) = streamEvents a ++ streamEvents b :=
  List.filterMap_append a b Step.evOf

theorem streamEvents_flatten (L : List (List Step)) :
    streamEvents L.flatten = (L.map streamEvents).flatten := by
  induction L with
  | nil => rfl
  | cons x xs ih => simp only [List.flatten_cons, streamEvents_append, ih, List.map_cons]

theorem streamEvents_iterChunk (oracle : Nat → GenOutcome) (ids : Nat → String)
    (clock : Nat → Nat) (userKey prompt : String) (i : Nat) :
    streamEvents (iterChunk oracle ids clock userKey prompt i) =
      [iterEv oracle ids i] := by
  unfold iterChunk iterEv
  cases oracle i with
  | raise msg => rfl
  | ok res =>
    by_cases hf : (falsyStr res.newImageBase64 || falsyStr res.newImageMimeType) = true
    · simp [hf, streamEvents, Step.evOf]
    · simp [hf, streamEvents, Step.evOf, imageRowFor]

theorem callUpstream_mem_iterChunk (oracle : Nat → GenOutcome) (ids : Nat → String)
    (clock : Nat → Nat) (userKey prompt : String) (i k : Nat) :
    Step.callUpstream k ∈ iterChunk oracle ids clock userKey prompt i ↔ k = i := by
  unfold iterChunk
  cases oracle i with
  | raise msg => simp
  | ok res =>
    by_cases hf : (falsyStr res.newImageBase64 || falsyStr res.newImageMimeType) = true
    · simp [hf]
    · simp [hf]

theorem range_succ_map_shift {α : Type} (f : Nat → α) (i n : Nat) :
    (List.range (n+1)).map (fun k => f (i + k)) =
      f i :: (List.range n).map (fun k => f (i + 1 + k)) := by
  rw [List.range_succ_eq_map, List.map_cons, List.map_map]
  have h1 : ((fun k => f (i + k)) ∘ Nat.succ) = fun k => f (i + 1 + k) := by
    funext k
    show f (i + (k + 1)) = f (i + 1 + k)
    congr 1
    omega
  rw [h1, Nat.add_zero]

theorem runStreamIters_ok_char (oracle : Nat → GenOutcome) (ids : Nat → String)
    (clock : Nat → Nat) (userKey prompt : String) :
    ∀ n i produced lastText st,
      (∀ k, k < n → (oracle (i + k)).isRaise = false) →
      (runStreamIters oracle ids clock userKey prompt i n produced lastText st).errored = false ∧
      (runStreamIters oracle ids clock userKey prompt i n produced lastText st).timeline =
        ((List.range n).map (fun k => iterChunk oracle ids clock userKey prompt (i + k))).flatten ∧
      (runStreamIters oracle ids clock userKey prompt i n produced lastText st).produced =
        produced + ((List.range n).map (fun k => iterEv oracle ids (i + k))).countP Ev.isItem := by
  intro n
  induction n with
  | zero =>
    intro i produced lastText st _
    exact ⟨rfl, rfl, by simp [runStreamIters]⟩
  | succ n ih =>
    intro i produced lastText st h
    have h0 : (oracle i).isRaise = false := by simpa using h 0 (Nat.succ_pos n)
    have hshift : ∀ k, k < n → (oracle (i + 1 + k)).isRaise = false := by
      intro k hk
      have := h (k+1) (by omega)
      rw [show i + (k+1) = i + 1 + k by omega] at this
      exact this
    cases horacle : oracle i with
    | raise msg => rw [horacle] at h0; simp [GenOutcome.isRaise] at h0
    | ok res =>
      by_cases hf : (falsyStr res.newImageBase64 || falsyStr res.newImageMimeType) = true
      · obtain ⟨he, ht, hp⟩ := ih (i+1) produced (jsNullish res.textResponse lastText) st hshift
        refine ⟨?_, ?_, ?_⟩
        · simp only [runStreamIters, horacle, hf, if_true]
          exact he
        · simp only [runStreamIters, horacle, hf, if_true]
          rw [range_succ_map_shift (fun k => iterChunk oracle ids clock userKey prompt k) i n,
            List.flatten_cons, ht]
          unfold iterChunk
          rw [horacle]
          simp [hf]
        · simp only [runStreamIters, horacle, hf, if_true]
          rw [range_succ_map_shift (fun k => iterEv oracle ids k) i n, hp]
          rw [List.countP_cons]
          have : Ev.isItem (iterEv oracle ids i) = false := by
            unfold iterEv
            rw [horacle]
            simp [hf, Ev.isItem]
          simp [this]
      · obtain ⟨he, ht, hp⟩ :=
          ih (i+1) (produced+1) (jsNullish res.textResponse lastText)
            ⟨insertHistory st.ledger (imageRowFor ids clock userKey prompt res i),
             mediaPut st.media (imageRowFor ids clock userKey prompt res i).r2_key
               (res.newImageBase64.getD "")
               (imageRowFor ids clock userKey prompt res i).mime_type⟩ hshift
        refine ⟨?_, ?_, ?_⟩
        · simp only [runStreamIters, horacle, hf, if_false, Bool.false_eq_true]
          exact he
        · simp only [runStreamIters, horacle, hf, if_false, Bool.false_eq_true]
          rw [range_succ_map_shift (fun k => iterChunk oracle ids clock userKey prompt k) i n,
            List.flatten_cons, ht]
          unfold iterChunk
          rw [horacle]
          simp [hf]
        · simp only [runStreamIters, horacle, hf, if_false, Bool.false_eq_true]
          rw [range_succ_map_shift (fun k => iterEv oracle ids k) i n, hp]
          rw [List.countP_cons]
          have : Ev.isItem (iterEv oracle ids i) = true := by
            unfold iterEv
            rw [horacle]
            simp [hf, Ev.isItem]
          simp [this]
          omega

theorem runStreamIters_raise_char (oracle : Nat → GenOutcome) (ids : Nat → String)
    (clock : Nat → Nat) (userKey prompt : String) :
    ∀ j n i produced lastText st msg, j < n →
      oracle (i + j) = .raise msg →
      (∀ k, k < j → (oracle (i + k)).isRaise = false) →
      (runStreamIters oracle ids clock userKey prompt i n produced lastText st).errored = true ∧
      (runStreamIters oracle ids clock userKey prompt i n produced lastText st).timeline =
        ((List.range j).map (fun k => iterChunk oracle ids clock userKey prompt (i + k))).flatten ++
          [.callUpstream (i + j), .ev (.error msg)] := by
  intro j
  induction j with
  | zero =>
    intro n i produced lastText st msg hjn hraise _
    rw [Nat.add_zero] at hraise
    cases n with
    | zero => omega
    | succ m =>
      refine ⟨?_, ?_⟩ <;> simp [runStreamIters, hraise]
  | succ j ihj =>
    intro n i produced lastText st msg hjn hraise hbefore
    cases n with
    | zero => omega
    | succ m =>
      have h0 : (oracle i).isRaise = false := by simpa using hbefore 0 (Nat.succ_pos j)
      have hraise' : oracle (i + 1 + j) = .raise msg := by
        rw [show i + 1 + j = i + (j + 1) by omega]
        exact hraise
      have hbefore' : ∀ k, k < j → (oracle (i + 1 + k)).isRaise = false := by
        intro k hk
        have := hbefore (k+1) (by omega)
        rw [show i + (k+1) = i + 1 + k by omega] at this
        exact this
      cases horacle : oracle i with
      | raise m0 => rw [horacle] at h0; simp [GenOutcome.isRaise] at h0
      | ok res =>
        by_cases hf : (falsyStr res.newImageBase64 || falsyStr res.newImageMimeType) = true
        · obtain ⟨he, ht⟩ :=
            ihj m (i+1) produced (jsNullish res.textResponse lastText) st msg
              (by omega) hraise' hbefore'
          refine ⟨?_, ?_⟩
          · simp only [runStreamIters, horacle, hf, if_true]
            exact he
          · simp only [runStreamIters, horacle, hf, if_true]
            rw [range_succ_map_shift (fun k => iterChunk oracle ids clock userKey prompt k) i j,
              List.flatten_cons, List.append_assoc, ht]
            unfold iterChunk
            rw [horacle]
            simp [hf]
            omega
        · obtain ⟨he, ht⟩ :=
            ihj m (i+1) (produced+1) (jsNullish res.textResponse lastText)
              ⟨insertHistory st.ledger (imageRowFor ids clock userKey prompt res i),
               mediaPut st.media (imageRowFor ids clock userKey prompt res i).r2_key
                 (res.newImageBase64.getD "")
                 (imageRowFor ids clock userKey prompt res i).mime_type⟩ msg
              (by omega) hraise' hbefore'
          refine ⟨?_, ?_⟩
          · simp only [runStreamIters, horacle, hf, if_false, Bool.false_eq_true]
            exact he
          · simp only [runStreamIters, horacle, hf, if_false, Bool.false_eq_true]
            rw [range_succ_map_shift (fun k => iterChunk oracle ids clock userKey prompt k) i j,
              List.flatten_cons, List.append_assoc, ht]
            unfold iterChunk
            rw [horacle]
            simp [hf]
            omega

theorem iai_nil : itemAfterInsert [] := by
  intro p mid u m tr ix h
  cases p <;> exact Option.noConfusion h

theorem iai_cons (a : Step) (t : List Step)
    (ha : ∀ mid u m tr ix, a ≠ .ev (.item mid u m tr ix))
    (ht : itemAfterInsert t) : itemAfterInsert (a :: t) := by
  intro p mid u m tr ix h
  cases p with
  | zero => exact absurd (Option.some.inj h) (ha mid u m tr ix)
  | succ p' =>
    obtain ⟨q, row, hq, hg, hid⟩ := ht p' mid u m tr ix h
    exact ⟨q + 1, row, Nat.succ_lt_succ hq, hg, hid⟩

theorem iai_insert_item (s0 s1 : Step) (row : HistoryRow) (u0 m0 : String)
    (tr0 : Option String) (ix0 : Nat) (t : List Step)
    (h0 : ∀ mid u m tr ix, s0 ≠ .ev (.item mid u m tr ix))
    (h1 : ∀ mid u m tr ix, s1 ≠ .ev (.item mid u m tr ix))
    (ht : itemAfterInsert t) :
    itemAfterInsert (s0 :: s1 :: .dbInsert row ::
      .ev (.item row.id u0 m0 tr0 ix0) :: t) := by
  intro p mid u m tr ix h
  match p with
  | 0 => exact absurd (Option.some.inj h) (h0 mid u m tr ix)
  | 1 => exact absurd (Option.some.inj h) (h1 mid u m tr ix)
  | 2 => exact absurd (Option.some.inj h) (by intro hh; cases hh)
  | 3 =>
    have h2 := Option.some.inj h
    injection h2 with h3
    injection h3 with ha hb hc hd he
    exact ⟨2, row, by omega, rfl, ha⟩
  | (n + 4) =>
    obtain ⟨q, row', hq, hg, hid⟩ := ht n mid u m tr ix h
    exact ⟨q + 4, row', by omega, hg, hid⟩

theorem iai_append_of_no_item (t l : List Step)
    (hl : ∀ mid u m tr ix, Step.ev (.item mid u m tr ix) ∉ l)
    (ht : itemAfterInsert t) : itemAfterInsert (t ++ l) := by
  intro p mid u m tr ix h
  by_cases hp : p < t.length
  · rw [List.get?_append hp] at h
    obtain ⟨q, row, hq, hg, hid⟩ := ht p mid u m tr ix h
    exact ⟨q, row, hq, by rw [List.get?_append (lt_trans hq hp)]; exact hg, hid⟩
  · rw [List.get?_append_right (Nat.le_of_not_lt hp)] at h
    exact absurd (List.get?_mem h) (hl mid u m tr ix)

theorem runStreamIters_iai (oracle : Nat → GenOutcome) (ids : Nat → String)
    (clock : Nat → Nat) (userKey prompt : String) :
    ∀ n i produced lastText st,
      itemAfterInsert
        (runStreamIters oracle ids clock userKey prompt i n produced lastText st).timeline := by
  intro n
  induction n with
  | zero => intro i produced lastText st; exact iai_nil
  | succ n ih =>
    intro i produced lastText st
    cases horacle : oracle i with
    | raise msg =>
      simp only [runStreamIters, horacle]
      exact iai_cons _ _ (by intro mid u m tr ix hh; simp at hh)
        (iai_cons _ _ (by intro mid u m tr ix hh; simp at hh) iai_nil)
    | ok res =>
      by_cases hf : (falsyStr res.newImageBase64 || falsyStr res.newImageMimeType) = true
      · simp only [runStreamIters, horacle, hf, if_true]
        exact iai_cons _ _ (by intro mid u m tr ix hh; simp at hh)
          (iai_cons _ _ (by intro mid u m tr ix hh; simp at hh) (ih _ _ _ _))
      · simp only [runStreamIters, horacle, hf, if_false, Bool.false_eq_true]
        exact iai_insert_item _ _ _ _ _ _ _ _
          (by intro mid u m tr ix hh; simp at hh)
          (by intro mid u m tr ix hh; simp at hh) (ih _ _ _ _)

theorem streamEvents_cons_ev (e : Ev) (l : List Step) :
    streamEvents (.ev e :: l) = e :: streamEvents l := rfl

theorem streamEvents_flatten_chunks (oracle : Nat → GenOutcome)
    (ids : Nat → String) (clock : Nat → Nat) (userKey prompt : String) :
    ∀ n i,
      streamEvents
        (((List.range n).map
          (fun k => iterChunk oracle ids clock userKey prompt (i + k))).flatten) =
        (List.range n).map (fun k => iterEv oracle ids (i + k)) := by
  intro n
  induction n with
  | zero => intro i; rfl
  | succ n ih =>
    intro i
    rw [range_succ_map_shift (fun k => iterChunk oracle ids clock userKey prompt k) i n,
      range_succ_map_shift (fun k => iterEv oracle ids k) i n,
      List.flatten_cons, streamEvents_append, streamEvents_iterChunk, ih (i+1)]
    rfl

theorem iterEv_index (oracle : Nat → GenOutcome) (ids : Nat → String) (K : Nat)
    (h : (oracle K).isRaise = false) :
    (iterEv oracle ids K).index? = some K := by
  unfold iterEv
  cases horacle : oracle K with
  | raise m => rw [horacle] at h; simp [GenOutcome.isRaise] at h
  | ok res =>
    by_cases hf : (falsyStr res.newImageBase64 || falsyStr res.newImageMimeType) = true
    · simp [hf, Ev.index?]
    · simp [hf, Ev.index?]

/-- C3 (amended): in streaming mode the response events are exactly `start`
with the requested count, then one `item`/`skip` event per index in strictly
increasing index order — for every index when no iteration raises, and for
the indices before the first raising iteration otherwise — then exactly one
terminal event: `done` carrying producedCount equal to the number of `item`
events in the no-raise case, or `error` at the first raise, which preempts
the remaining iterations' events as well as the `done`; no event follows the
terminal one, and every `item` is emitted only after its row was inserted
(itself after the blob write, see the put-before-insert theorem). -/
theorem stream_event_sequence (oracle : Nat → GenOutcome) (ids : Nat → String)
    (clock : Nat → Nat) (userKey prompt : String) (count : Nat) (st : OrchState) :
    ((∀ k, k < count → (oracle k).isRaise = false) →
      ∃ lt,
        streamEvents
          (routeGenerateImageStream oracle ids clock userKey prompt count st).timeline =
          .start count :: (List.range count).map (fun k => iterEv oracle ids k) ++
            [.done
              (decide (0 < ((List.range count).map
                (fun k => iterEv oracle ids k)).countP Ev.isItem))
              (((List.range count).map (fun k => iterEv oracle ids k)).countP Ev.isItem)
              lt]) ∧
    (∀ j msg, j < count → oracle j = .raise msg →
      (∀ k, k < j → (oracle k).isRaise = false) →
      streamEvents
        (routeGenerateImageStream oracle ids clock userKey prompt count st).timeline =
        .start count :: (List.range j).map (fun k => iterEv oracle ids k) ++
          [.error msg]) ∧
    itemAfterInsert
      (routeGenerateImageStream oracle ids clock userKey prompt count st).timeline := by
  refine ⟨?_, ?_, ?_⟩
  · intro h
    have h' : ∀ k, k < count → (oracle (0 + k)).isRaise = false := by
      intro k hk; rw [Nat.zero_add]; exact h k hk
    obtain ⟨he, ht, hp⟩ :=
      runStreamIters_ok_char oracle ids clock userKey prompt count 0 0 none st h'
    refine ⟨(runStreamIters oracle ids clock userKey prompt 0 count 0 none st).lastText, ?_⟩
    have hroute :
        (routeGenerateImageStream oracle ids clock userKey prompt count st).timeline =
          .ev (.start count) ::
            (runStreamIters oracle ids clock userKey prompt 0 count 0 none st).timeline ++
            [.ev (.done
              (decide (0 < (runStreamIters oracle ids clock userKey prompt 0 count 0 none st).produced))
              (runStreamIters oracle ids clock userKey prompt 0 count 0 none st).produced
              (runStreamIters oracle ids clock userKey prompt 0 count 0 none st).lastText)] := by
      unfold routeGenerateImageStream
      simp [he]
    rw [hroute, streamEvents_append, streamEvents_cons_ev, ht,
      streamEvents_flatten_chunks, hp]
    simp only [Nat.zero_add]
    rfl
  · intro j msg hj hraise hbefore
    have hraise' : oracle (0 + j) = .raise msg := by rw [Nat.zero_add]; exact hraise
    have hbefore' : ∀ k, k < j → (oracle (0 + k)).isRaise = false := by
      intro k hk; rw [Nat.zero_add]; exact hbefore k hk
    obtain ⟨he, ht⟩ :=
      runStreamIters_raise_char oracle ids clock userKey prompt j count 0 0 none st msg
        hj hraise' hbefore'
    have hroute :
        (routeGenerateImageStream oracle ids clock userKey prompt count st).timeline =
          .ev (.start count) ::
            (runStreamIters oracle ids clock userKey prompt 0 count 0 none st).timeline := by
      unfold routeGenerateImageStream
      simp [he]
    rw [hroute, streamEvents_cons_ev, ht, streamEvents_append,
      streamEvents_flatten_chunks]
    simp only [Nat.zero_add]
    rfl
  · unfold routeGenerateImageStream
    refine iai_cons _ _ (by intro mid u m tr ix hh; simp at hh) ?_
    refine iai_append_of_no_item _ _ ?_
      (runStreamIters_iai oracle ids clock userKey prompt _ _ _ _ _)
    intro mid u m tr ix hm
    by_cases he :
      (runStreamIters oracle ids clock userKey prompt 0 count 0 none st).errored = true
    · simp [he] at hm
    · simp [he] at hm

/-- C3 counterexample: streaming with count 2 where the first upstream call
raises emits only `start` then the terminal `error` — indices 0 and 1 get no
`item`/`skip` event, contradicting the claimed shape in which every index up
to count-1 emits exactly one such event before the terminal. -/
theorem stream_event_sequence_cex :
    streamEvents (routeGenerateImageStream failingOracle constIds constClock
        "u" "p" (clampCount 2) ⟨[], []⟩).timeline = [.start 2, .error "boom"] ∧
    ¬ (∀ i, i < clampCount 2 →
        (streamEvents (routeGenerateImageStream failingOracle constIds constClock
          "u" "p" (clampCount 2) ⟨[], []⟩).timeline).countP
            (fun e => e.index? == some i) = 1) := by
  decide

/-- Concrete instantiation of `stream_event_sequence`: the spec's worked
example — count 3, empty result in iteration 1 — yields
start, item 0, skip 1, item 2, done with producedCount 2. -/
theorem stream_event_sequence_witness :
    ∃ lt,
      streamEvents (routeGenerateImageStream mixedOracle constIds constClock
          "u" "p" 3 ⟨[], []⟩).timeline =
        .start 3 :: (List.range 3).map (fun k => iterEv mixedOracle constIds k) ++
          [.done
            (decide (0 < ((List.range 3).map
              (fun k => iterEv mixedOracle constIds k)).countP Ev.isItem))
            (((List.range 3).map (fun k => iterEv mixedOracle constIds k)).countP Ev.isItem)
            lt] :=
  (stream_event_sequence mixedOracle constIds constClock "u" "p" 3 ⟨[], []⟩).1
    (by decide)

/-- C2 counterexample: streaming with requested count 2 where iteration 0
fails: iteration 1 never performs its upstream call and emits no `item` or
`skip` event — a failure does abort the iterations after it. -/
theorem stream_failure_aborts_cex :
    Step.callUpstream 0 ∈ (routeGenerateImageStream failingOracle constIds constClock
        "u" "p" (clampCount 2) ⟨[], []⟩).timeline ∧
    Step.callUpstream 1 ∉ (routeGenerateImageStream failingOracle constIds constClock
        "u" "p" (clampCount 2) ⟨[], []⟩).timeline ∧
    (streamEvents (routeGenerateImageStream failingOracle constIds constClock
        "u" "p" (clampCount 2) ⟨[], []⟩).timeline).countP
      (fun e => e.index? == some 1) = 0 := by
  decide

/-- C2 (amended): an empty upstream result in one streaming iteration does
not abort the iterations after it — when no iteration raises, every index
below the clamped count performs its upstream call and emits exactly one
`item`/`skip` event — but an upstream failure (raised exception) in
iteration j does abort the iterations after j: no later iteration performs
its upstream call. -/
theorem stream_iteration_independence (oracle : Nat → GenOutcome)
    (ids : Nat → String) (clock : Nat → Nat) (userKey prompt : String)
    (count : Nat) (st : OrchState) :
    ((∀ k, k < count → (oracle k).isRaise = false) →
      ∀ k, k < count →
        Step.callUpstream k ∈
          (routeGenerateImageStream oracle ids clock userKey prompt count st).timeline ∧
        (streamEvents
          (routeGenerateImageStream oracle ids clock userKey prompt count st).timeline).countP
            (fun e => e.index? == some k) = 1) ∧
    (∀ j msg, j < count → oracle j = .raise msg →
      (∀ k, k < j → (oracle k).isRaise = false) →
      ∀ k, j < k →
        Step.callUpstream k ∉
          (routeGenerateImageStream oracle ids clock userKey prompt count st).timeline) := by
  constructor
  · intro h k hk
    have h' : ∀ k, k < count → (oracle (0 + k)).isRaise = false := by
      intro k' hk'; rw [Nat.zero_add]; exact h k' hk'
    obtain ⟨he, ht, hp⟩ :=
      runStreamIters_ok_char oracle ids clock userKey prompt count 0 0 none st h'
    have hroute :
        (routeGenerateImageStream oracle ids clock userKey prompt count st).timeline =
          .ev (.start count) ::
            (runStreamIters oracle ids clock userKey prompt 0 count 0 none st).timeline ++
            [.ev (.done
              (decide (0 < (runStreamIters oracle ids clock userKey prompt 0 count 0 none st).produced))
              (runStreamIters oracle ids clock userKey prompt 0 count 0 none st).produced
              (runStreamIters oracle ids clock userKey prompt 0 count 0 none st).lastText)] := by
      unfold routeGenerateImageStream
      simp [he]
    constructor
    · rw [hroute, ht]
      refine List.mem_append_left _ (List.mem_cons_of_mem _ ?_)
      refine List.mem_flatten.mpr
        ⟨iterChunk oracle ids clock userKey prompt (0 + k), ?_, ?_⟩
      · exact List.mem_map.mpr ⟨k, List.mem_range.mpr hk, rfl⟩
      · exact (callUpstream_mem_iterChunk oracle ids clock userKey prompt (0 + k) k).mpr
          (by omega)
    · rw [hroute, streamEvents_append, streamEvents_cons_ev, ht,
        streamEvents_flatten_chunks]
      simp only [Nat.zero_add]
      rw [List.countP_append, List.countP_cons, List.countP_map]
      have hdone : (streamEvents [Step.ev (Ev.done
          (decide (0 < (runStreamIters oracle ids clock userKey prompt 0 count 0 none st).produced))
          (runStreamIters oracle ids clock userKey prompt 0 count 0 none st).produced
          (runStreamIters oracle ids clock userKey prompt 0 count 0 none st).lastText)]).countP
            (fun e => e.index? == some k) = 0 := rfl
      rw [hdone]
      have hcongr :
          (List.range count).countP
            ((fun e => e.index? == some k) ∘ (fun K => iterEv oracle ids K)) =
            (List.range count).countP (fun K => K == k) := by
        apply List.countP_congr
        intro K hK
        have hKlt := List.mem_range.mp hK
        simp only [Function.comp]
        rw [iterEv_index oracle ids K (h K hKlt)]
        rfl
      rw [hcongr]
      have hcnt : (List.range count).countP (fun K => K == k) =
          (List.range count).count k := by
        simp [List.count]
      rw [hcnt]
      rw [List.count_eq_one_of_mem (List.nodup_range count) (List.mem_range.mpr hk)]
      rfl
  · intro j msg hj hraise hbefore k hk
    have hraise' : oracle (0 + j) = .raise msg := by rw [Nat.zero_add]; exact hraise
    have hbefore' : ∀ k', k' < j → (oracle (0 + k')).isRaise = false := by
      intro k' hk'; rw [Nat.zero_add]; exact hbefore k' hk'
    obtain ⟨he, ht⟩ :=
      runStreamIters_raise_char oracle ids clock userKey prompt j count 0 0 none st msg
        hj hraise' hbefore'
    have hroute :
        (routeGenerateImageStream oracle ids clock userKey prompt count st).timeline =
          .ev (.start count) ::
            (runStreamIters oracle ids clock userKey prompt 0 count 0 none st).timeline := by
      unfold routeGenerateImageStream
      simp [he]
    rw [hroute, ht]
    intro hmem
    rcases List.mem_cons.mp hmem with h1 | h2
    · exact Step.noConfusion h1
    rcases List.mem_append.mp h2 with h3 | h4
    · obtain ⟨l, hl, hkl⟩ := List.mem_flatten.mp h3
      obtain ⟨K, hK, rfl⟩ := List.mem_map.mp hl
      have hkK :=
        (callUpstream_mem_iterChunk oracle ids clock userKey prompt (0 + K) k).mp hkl
      have hKlt := List.mem_range.mp hK
      omega
    · rcases List.mem_cons.mp h4 with h5 | h6
      · injection h5 with h7
        omega
      · rcases List.mem_cons.mp h6 with h7 | h8
        · exact Step.noConfusion h7
        · exact absurd h8 (List.not_mem_nil _)

/-- Concrete instantiation of `stream_iteration_independence`: with the
spec's worked mixed run (count 3, empty at index 1) every iteration runs and
emits one event; with the failing run (raise at 0) iteration 1 never calls
upstream. -/
theorem stream_iteration_independence_witness :
    (Step.callUpstream 1 ∈ (routeGenerateImageStream mixedOracle constIds constClock
        "u" "p" 3 ⟨[], []⟩).timeline ∧
      (streamEvents (routeGenerateImageStream mixedOracle constIds constClock
        "u" "p" 3 ⟨[], []⟩).timeline).countP (fun e => e.index? == some 1) = 1) ∧
    Step.callUpstream 1 ∉ (routeGenerateImageStream failingOracle constIds constClock
        "u" "p" 2 ⟨[], []⟩).timeline :=
  ⟨(stream_iteration_independence mixedOracle constIds constClock "u" "p" 3
      ⟨[], []⟩).1 (by decide) 1 (by decide),
   (stream_iteration_independence failingOracle constIds constClock "u" "p" 2
      ⟨[], []⟩).2 0 "boom" (by decide) (by decide)
      (fun k hk => absurd hk (Nat.not_lt_zero k)) 1 (by decide)⟩

/-- C10: the streaming branch constructs its HTTP response with status 200
no matter what the upstream oracle does; an upstream failure during the
iterations surfaces only as the terminal `error` event inside the stream
body, never as an HTTP error status. -/
theorem stream_http_status_200 (oracle : Nat → GenOutcome) (ids : Nat → String)
    (clock : Nat → Nat) (userKey prompt : String) (count : Nat) (st : OrchState) :
    (routeGenerateImageStream oracle ids clock userKey prompt count st).status = 200 ∧
    (∀ j msg, j < count → oracle j = .raise msg →
      (∀ k, k < j → (oracle k).isRaise = false) →
      ∃ pre,
        streamEvents
          (routeGenerateImageStream oracle ids clock userKey prompt count st).timeline =
          .start count :: pre ++ [.error msg]) := by
  constructor
  · rfl
  · intro j msg hj hraise hbefore
    have hraise' : oracle (0 + j) = .raise msg := by rw [Nat.zero_add]; exact hraise
    have hbefore' : ∀ k, k < j → (oracle (0 + k)).isRaise = false := by
      intro k hk; rw [Nat.zero_add]; exact hbefore k hk
    obtain ⟨he, ht⟩ :=
      runStreamIters_raise_char oracle ids clock userKey prompt j count 0 0 none st msg
        hj hraise' hbefore'
    have hroute :
        (routeGenerateImageStream oracle ids clock userKey prompt count st).timeline =
          .ev (.start count) ::
            (runStreamIters oracle ids clock userKey prompt 0 count 0 none st).timeline := by
      unfold routeGenerateImageStream
      simp [he]
    refine ⟨(List.range j).map (fun k => iterEv oracle ids k), ?_⟩
    rw [hroute, streamEvents_cons_ev, ht, streamEvents_append,
      streamEvents_flatten_chunks]
    simp only [Nat.zero_add]
    rfl

/-- Concrete instantiation of `stream_http_status_200`: the failing run still
returns status 200 and reports the failure as its terminal error event. -/
theorem stream_http_status_200_witness :
    (routeGenerateImageStream failingOracle constIds constClock "u" "p" 2
      ⟨[], []⟩).status = 200 ∧
    ∃ pre,
      streamEvents (routeGenerateImageStream failingOracle constIds constClock
        "u" "p" 2 ⟨[], []⟩).timeline = .start 2 :: pre ++ [.error "boom"] :=
  ⟨(stream_http_status_200 failingOracle constIds constClock "u" "p" 2 ⟨[], []⟩).1,
   (stream_http_status_200 failingOracle constIds constClock "u" "p" 2 ⟨[], []⟩).2
     0 "boom" (by decide) rfl (fun k hk => absurd hk (Nat.not_lt_zero k))⟩

theorem kvGet_kvDelete (kv : KvStore) (k : String) :
    kvGet (kvDelete kv k) k = none := by
  induction kv with
  | nil => rfl
  | cons e rest ih =>
    by_cases he : (e.1 == k) = true
    · show kvGet (List.filter _ (e :: rest)) k = none
      rw [List.filter_cons]
      simp only [he, Bool.not_true, Bool.false_eq_true, if_false]
      exact ih
    · show kvGet (List.filter _ (e :: rest)) k = none
      rw [List.filter_cons]
      have hne : (!(e.1 == k)) = true := by simp [he]
      simp only [hne, if_true]
      simp only [kvGet, kvDelete] at ih ⊢
      rw [show List.find? (fun x => x.1 == k)
            (e :: List.filter (fun x => !(x.1 == k)) rest) =
          List.find? (fun x => x.1 == k)
            (List.filter (fun x => !(x.1 == k)) rest) from
        List.find?_cons_of_neg _ he]
      exact ih

theorem mediaGet_mediaPut (m : MediaStore) (k c t : String) :
    mediaGet (mediaPut m k c t) k = some (c, t) := by
  simp [mediaGet, mediaPut, List.find?_cons_of_pos]

/-- C8: polling /api/video/status for an operation handle owned by the
requester: when the provider reports done with no error and the output
downloads, exactly one HistoryRecord of kind "video" is appended to the
ledger — after the output was written to the media store (the put precedes
the insert in the timeline) — and the handle is deleted, so the operation
name no longer resolves (a repeat poll observes 404); when the provider
reports done with a terminal error, the error is surfaced in the response
and neither the ledger nor the KV store changes. -/
theorem video_status_finalization (st : OrchState) (kv : KvStore)
    (userKey name opPrompt : String) (poll : VideoPoll)
    (download : DownloadResult) (newId : String) (now : Nat)
    (hname : name ≠ "")
    (hkv : kvGet kv ("videoop:" ++ name) = some (.videoOp userKey opPrompt)) :
    (poll.done = true → poll.error = none → ∀ uri, poll.outputUri = some uri →
      ∀ content ctype, download = .ok content ctype →
      ∃ row,
        (routeVideoStatus st kv userKey (some name) poll download newId now).st.ledger =
          st.ledger ++ [row] ∧
        row.kind = "video" ∧ row.id = newId ∧ row.prompt = opPrompt ∧
        (routeVideoStatus st kv userKey (some name) poll download newId now).resp =
          .okVideoDone newId (mediaUrlOf newId) row.mime_type ∧
        (routeVideoStatus st kv userKey (some name) poll download newId now).timeline =
          [.r2Put row.r2_key content row.mime_type, .dbInsert row,
           .kvRemove ("videoop:" ++ name)] ∧
        mediaGet
          (routeVideoStatus st kv userKey (some name) poll download newId now).st.media
          row.r2_key = some (content, row.mime_type) ∧
        kvGet (routeVideoStatus st kv userKey (some name) poll download newId now).kv
          ("videoop:" ++ name) = none ∧
        (∀ poll' download' newId' now',
          (routeVideoStatus
            (routeVideoStatus st kv userKey (some name) poll download newId now).st
            (routeVideoStatus st kv userKey (some name) poll download newId now).kv
            userKey (some name) poll' download' newId' now').resp =
            .error 404 "Operation not found")) ∧
    (poll.done = true → ∀ msg, poll.error = some msg →
      (routeVideoStatus st kv userKey (some name) poll download newId now).resp =
        .okVideoError msg ∧
      (routeVideoStatus st kv userKey (some name) poll download newId now).st = st ∧
      (routeVideoStatus st kv userKey (some name) poll download newId now).kv = kv) := by
  constructor
  · intro hdone herr uri huri content ctype hdl
    subst hdl
    simp only [routeVideoStatus, hname, if_false, hkv, ne_eq, not_true_eq_false,
      hdone, Bool.not_true, Bool.false_eq_true, herr, huri]
    refine ⟨_, rfl, rfl, rfl, rfl, rfl, rfl, mediaGet_mediaPut _ _ _ _,
      kvGet_kvDelete kv ("videoop:" ++ name), ?_⟩
    intro poll' download' newId' now'
    simp only [routeVideoStatus, hname, if_false, kvGet_kvDelete]
  · intro hdone msg herr
    simp only [routeVideoStatus, hname, if_false, hkv, ne_eq, not_true_eq_false,
      hdone, Bool.not_true, Bool.false_eq_true, herr]
    exact ⟨trivial, trivial, trivial⟩

/-- Concrete instantiation of `video_status_finalization`: a finished
operation owned by the requester mints exactly one video history row and the
handle stops resolving. -/
theorem video_status_finalization_witness :
    ∃ row,
      (routeVideoStatus ⟨[], []⟩ [("videoop:op1", .videoOp "u" "make")] "u"
        (some "op1") ⟨true, none, some "uri"⟩ (.ok "VID" (some "video/mp4"))
        "v1" 9).st.ledger = [] ++ [row] ∧
      row.kind = "video" ∧ row.id = "v1" ∧ row.prompt = "make" ∧
      kvGet (routeVideoStatus ⟨[], []⟩ [("videoop:op1", .videoOp "u" "make")] "u"
        (some "op1") ⟨true, none, some "uri"⟩ (.ok "VID" (some "video/mp4"))
        "v1" 9).kv ("videoop:" ++ "op1") = none := by
  obtain ⟨row, h1, h2, h3, h4, h5, h6, h7, h8, h9⟩ :=
    (video_status_finalization ⟨[], []⟩ [("videoop:op1", .videoOp "u" "make")] "u"
      "op1" "make" ⟨true, none, some "uri"⟩ (.ok "VID" (some "video/mp4")) "v1" 9
      (by decide) (by decide)).1 rfl rfl "uri" rfl "VID" (some "video/mp4") rfl
  exact ⟨row, h1, h2, h3, h4, h8⟩

example : natToChars 20 = ['2', '0'] := by decide

example : encodeCursorRow ⟨"b", "u", "image", "p", 20, "u/b.png", "image/png", none, none, none⟩ = "20:b" := by decide

example : parseCursor "20:b" = some (⟨20, 0⟩, "b") := by decide

example : parseCursor "" = none := by decide
example : parseCursor "garbage" = none := by decide
example : parseCursor "garbage:a" = none := by decide
example : parseCursor "12" = none := by decide
example : parseCursor "12:" = none := by decide
example : parseCursor "1x:a" = none := by decide
example : parseCursor "Infinity:a" = none := by decide
example : parseCursor "-Infinity:a" = none := by decide
example : parseCursor ":a" = some (⟨0, 0⟩, "a") := by decide
example : parseCursor "0x10:a" = some (⟨16, 0⟩, "a") := by decide
example : parseCursor "0o17:a" = some (⟨15, 0⟩, "a") := by decide
example : parseCursor "0b101:a" = some (⟨5, 0⟩, "a") := by decide
example : parseCursor "12.5:a" = some (⟨125, -1⟩, "a") := by decide
example : parseCursor ".5:a" = some (⟨5, -1⟩, "a") := by decide
example : parseCursor "5.:a" = some (⟨5, 0⟩, "a") := by decide
example : parseCursor " 7 :a" = some (⟨7, 0⟩, "a") := by decide
example : parseCursor "+7:a" = some (⟨7, 0⟩, "a") := by decide
example : parseCursor "-3e2:a" = some (⟨-3, 2⟩, "a") := by decide
example : parseCursor "4e-2:a" = some (⟨4, -2⟩, "a") := by decide
example : parseCursor "10:b:c" = some (⟨10, 0⟩, "b") := by decide

example : afterCursor (⟨20, 0⟩, "b")
  ⟨"c", "u", "image", "p", 10, "u/c.png", "image/png", none, none, none⟩ = true := by decide

/- A guard-passing hex cursor is applied as the keyset bound (0x10 = 16), not
ignored: the row at created_at 20 is filtered out, the row at 10 kept. -/
example :
    listHistory
      [⟨"a", "u", "image", "p", 20, "u/a.png", "image/png", none, none, none⟩,
       ⟨"c", "u", "image", "p", 10, "u/c.png", "image/png", none, none, none⟩]
      "u" 5 (some "0x10:a") =
    ⟨[⟨"c", "u", "image", "p", 10, "u/c.png", "image/png", none, none, none⟩],
     none⟩ := by decide

/- An empty timestamp part coerces to 0 and is likewise applied, yielding an
empty page, unlike an ignored cursor. -/
example :
    listHistory
      [⟨"a", "u", "image", "p", 20, "u/a.png", "image/png", none, none, none⟩]
      "u" 5 (some ":a") = ⟨[], none⟩ := by decide

example : List.insertionSort rowOrder
    [⟨"c", "u", "image", "p", 10, "u/c.png", "image/png", none, none, none⟩,
     ⟨"a", "u", "image", "p", 30, "u/a.png", "image/png", none, none, none⟩] =
    [⟨"a", "u", "image", "p", 30, "u/a.png", "image/png", none, none, none⟩,
     ⟨"c", "u", "image", "p", 10, "u/c.png", "image/png", none, none, none⟩] := by decide

example :
    listHistory
      [⟨"a", "u", "image", "p", 30, "u/a.png", "image/png", none, none, none⟩,
       ⟨"b", "u", "image", "p", 20, "u/b.png", "image/png", none, none, none⟩,
       ⟨"c", "u", "image", "p", 10, "u/c.png", "image/png", none, none, none⟩]
      "u" 2 none =
    ⟨[⟨"a", "u", "image", "p", 30, "u/a.png", "image/png", none, none, none⟩,
      ⟨"b", "u", "image", "p", 20, "u/b.png", "image/png", none, none, none⟩],
     some "20:b"⟩ := by decide

example :
    listHistory
      [⟨"a", "u", "image", "p", 30, "u/a.png", "image/png", none, none, none⟩,
       ⟨"b", "u", "image", "p", 20, "u/b.png", "image/png", none, none, none⟩,
       ⟨"c", "u", "image", "p", 10, "u/c.png", "image/png", none, none, none⟩]
      "u" 2 (some "20:b") =
    ⟨[⟨"c", "u", "image", "p", 10, "u/c.png", "image/png", none, none, none⟩],
     none⟩ := by
  decide

example :
    listPages
      [⟨"a", "u", "image", "p", 30, "u/a.png", "image/png", none, none, none⟩,
       ⟨"b", "u", "image", "p", 20, "u/b.png", "image/png", none, none, none⟩,
       ⟨"c", "u", "image", "p", 10, "u/c.png", "image/png", none, none, none⟩]
      "u" 2 3 =
    [⟨[⟨"a", "u", "image", "p", 30, "u/a.png", "image/png", none, none, none⟩,
       ⟨"b", "u", "image", "p", 20, "u/b.png", "image/png", none, none, none⟩],
      some "20:b"⟩,
     ⟨[⟨"c", "u", "image", "p", 10, "u/c.png", "image/png", none, none, none⟩],
      none⟩] := by
  decide

theorem charDigit?_digitChar (d : Nat) (hd : d < 10) :
    charDigit? (digitChar d) = some d := by
  interval_cases d <;> rfl

theorem digitChar_ne_colon (d : Nat) (hd : d < 10) : digitChar d ≠ ':' := by
  interval_cases d <;> decide

theorem natToCharsAux_append : ∀ fuel n acc,
    natToCharsAux fuel n acc = natToCharsAux fuel n [] ++ acc := by
  intro fuel
  induction fuel with
  | zero => intro n acc; rfl
  | succ fuel ih =>
    intro n acc
    unfold natToCharsAux
    by_cases h10 : n < 10
    · simp [h10]
    · rw [if_neg h10, if_neg h10, ih (n/10) (digitChar (n % 10) :: acc),
        ih (n/10) [digitChar (n % 10)]]
      simp

theorem natToCharsAux_digits : ∀ fuel n, n < fuel →
    ∀ c ∈ natToCharsAux fuel n [], (charDigit? c).isSome ∧ c ≠ ':' := by
  intro fuel
  induction fuel with
  | zero => intro n h; omega
  | succ fuel ih =>
    intro n hn c hc
    unfold natToCharsAux at hc
    by_cases h10 : n < 10
    · rw [if_pos h10] at hc
      rcases List.mem_cons.mp hc with rfl | hmem
      · exact ⟨by rw [charDigit?_digitChar n h10]; rfl, digitChar_ne_colon n h10⟩
      · exact absurd hmem (List.not_mem_nil c)
    · rw [if_neg h10, natToCharsAux_append] at hc
      rcases List.mem_append.mp hc with hmem | hmem
      · exact ih (n/10) (by omega) c hmem
      · rcases List.mem_cons.mp hmem with rfl | hmem'
        · exact ⟨by rw [charDigit?_digitChar _ (Nat.mod_lt n (by norm_num))]; rfl,
            digitChar_ne_colon _ (Nat.mod_lt n (by norm_num))⟩
        · exact absurd hmem' (List.not_mem_nil c)

theorem natToCharsAux_ne_nil : ∀ fuel n, n < fuel →
    natToCharsAux fuel n [] ≠ [] := by
  intro fuel
  induction fuel with
  | zero => intro n h; omega
  | succ fuel _ =>
    intro n hn
    unfold natToCharsAux
    by_cases h10 : n < 10
    · simp [h10]
    · rw [if_neg h10, natToCharsAux_append]
      intro hcontra
      exact List.noConfusion (List.append_eq_nil.mp hcontra).2

theorem foldl_natToCharsAux : ∀ fuel n, n < fuel →
    (natToCharsAux fuel n []).foldl (fun a c => 10 * a + (charDigit? c).getD 0) 0 =
      n := by
  intro fuel
  induction fuel with
  | zero => intro n h; omega
  | succ fuel ih =>
    intro n hn
    unfold natToCharsAux
    by_cases h10 : n < 10
    · rw [if_pos h10]
      simp [charDigit?_digitChar n h10]
    · rw [if_neg h10, natToCharsAux_append, List.foldl_append]
      rw [ih (n/10) (by omega)]
      simp [charDigit?_digitChar _ (Nat.mod_lt n (by norm_num))]
      omega

theorem natFromDigits_natToChars (n : Nat) :
    natFromDigits (natToChars n) = n := by
  unfold natFromDigits natToChars
  exact foldl_natToCharsAux (n+1) n (by omega)

theorem takeWhile_eq_self_of_all {α : Type} (p : α → Bool) :
    ∀ l : List α, (∀ c ∈ l, p c = true) → l.takeWhile p = l := by
  intro l
  induction l with
  | nil => intro _; rfl
  | cons a tl ih =>
    intro h
    rw [List.takeWhile_cons, h a (List.mem_cons_self a tl), if_pos rfl,
      ih (fun c hc => h c (List.mem_cons_of_mem a hc))]

theorem dropWhile_eq_nil_of_all {α : Type} (p : α → Bool) :
    ∀ l : List α, (∀ c ∈ l, p c = true) → l.dropWhile p = [] := by
  intro l
  induction l with
  | nil => intro _; rfl
  | cons a tl ih =>
    intro h
    rw [List.dropWhile_cons, h a (List.mem_cons_self a tl), if_pos rfl]
    exact ih (fun c hc => h c (List.mem_cons_of_mem a hc))

theorem dropWhile_eq_self_of_none {α : Type} (p : α → Bool) (l : List α)
    (h : ∀ c ∈ l, p c = false) : l.dropWhile p = l := by
  cases l with
  | nil => rfl
  | cons a tl =>
    rw [List.dropWhile_cons, h a (List.mem_cons_self a tl)]
    simp

theorem charDigit?_isSome_props (c : Char) (h : (charDigit? c).isSome = true) :
    jsIsSpace c = false ∧ c ≠ '-' ∧ c ≠ '+' ∧ c ≠ 'I' ∧ c ≠ 'x' ∧ c ≠ 'X' ∧
      c ≠ 'o' ∧ c ≠ 'O' ∧ c ≠ 'b' ∧ c ≠ 'B' := by
  unfold charDigit? at h
  split_ifs at h with h0 h1 h2 h3 h4 h5 h6 h7 h8 h9
  · subst h0; decide
  · subst h1; decide
  · subst h2; decide
  · subst h3; decide
  · subst h4; decide
  · subst h5; decide
  · subst h6; decide
  · subst h7; decide
  · subst h8; decide
  · subst h9; decide
  · exact absurd h (by decide)

theorem jsTrimData_of_digits (l : List Char)
    (hd : ∀ c ∈ l, (charDigit? c).isSome = true) : jsTrimData l = l := by
  have hsp : ∀ c ∈ l, jsIsSpace c = false :=
    fun c hc => (charDigit?_isSome_props c (hd c hc)).1
  unfold jsTrimData
  rw [dropWhile_eq_self_of_none _ l hsp,
    dropWhile_eq_self_of_none _ l.reverse
      (fun c hc => hsp c (List.mem_reverse.mp hc)),
    List.reverse_reverse]

theorem jsDecimal?_all_digits (l : List Char) (hne : l ≠ [])
    (hd : ∀ c ∈ l, (charDigit? c).isSome = true) :
    jsDecimal? l = some ⟨(natFromDigits l : Int), 0⟩ := by
  cases l with
  | nil => exact absurd rfl hne
  | cons c0 tl =>
    obtain ⟨_, hm0, hp0, hI0, _⟩ :=
      charDigit?_isSome_props c0 (hd c0 (List.mem_cons_self c0 tl))
    have hsgn : jsSign (c0 :: tl) = (1, c0 :: tl) := by
      show (if c0 = '-' then ((-1 : Int), tl)
        else if c0 = '+' then ((1 : Int), tl)
        else ((1 : Int), c0 :: tl)) = ((1 : Int), c0 :: tl)
      rw [if_neg hm0, if_neg hp0]
    have htake : (c0 :: tl).takeWhile (fun c => (charDigit? c).isSome) = c0 :: tl :=
      takeWhile_eq_self_of_all _ _ hd
    have hdrop : (c0 :: tl).dropWhile (fun c => (charDigit? c).isSome) = [] :=
      dropWhile_eq_nil_of_all _ _ hd
    unfold jsDecimal?
    rw [hsgn]
    dsimp only
    rw [if_neg (fun hinf => hI0 (List.cons.inj hinf).1), htake, hdrop]
    show (if c0 :: tl = [] ∧ (jsFracSplit []).1 = [] then none
      else
        match (jsFracSplit []).2 with
        | [] => some (⟨1 * (natFromDigits (c0 :: tl ++ (jsFracSplit []).1) : Int),
            -((jsFracSplit []).1.length : Int)⟩ : JsNum)
        | e :: r3 =>
          if e = 'e' ∨ e = 'E' then
            match jsExpVal? r3 with
            | some ev =>
              some (⟨1 * (natFromDigits (c0 :: tl ++ (jsFracSplit []).1) : Int),
                ev - ((jsFracSplit []).1.length : Int)⟩ : JsNum)
            | none => none
          else none) = some (⟨(natFromDigits (c0 :: tl) : Int), 0⟩ : JsNum)
    rw [if_neg (fun hc => List.cons_ne_nil c0 tl hc.1)]
    show some (⟨1 * (natFromDigits (c0 :: tl ++ ([] : List Char)) : Int),
        -((List.length ([] : List Char) : Int))⟩ : JsNum) =
      some (⟨(natFromDigits (c0 :: tl) : Int), 0⟩ : JsNum)
    rw [List.append_nil, one_mul]
    norm_num

theorem jsStrNumeric?_all_digits (l : List Char) (hne : l ≠ [])
    (hd : ∀ c ∈ l, (charDigit? c).isSome = true) :
    jsStrNumeric? l = some ⟨(natFromDigits l : Int), 0⟩ := by
  cases l with
  | nil => exact absurd rfl hne
  | cons c0 tl =>
    cases tl with
    | nil =>
      unfold jsStrNumeric?
      rw [if_neg (List.cons_ne_nil c0 [])]
      exact jsDecimal?_all_digits [c0] (List.cons_ne_nil c0 []) hd
    | cons c1 tl2 =>
      obtain ⟨_, _, _, _, hx1, hX1, ho1, hO1, hb1, hB1⟩ :=
        charDigit?_isSome_props c1
          (hd c1 (List.mem_cons_of_mem c0 (List.mem_cons_self c1 tl2)))
      unfold jsStrNumeric?
      rw [if_neg (List.cons_ne_nil c0 (c1 :: tl2))]
      show (if c0 = '0' ∧ (c1 = 'x' ∨ c1 = 'X') then
          (radixNat? 16 tl2).map (fun m => (⟨(m : Int), 0⟩ : JsNum))
        else if c0 = '0' ∧ (c1 = 'o' ∨ c1 = 'O') then
          (radixNat? 8 tl2).map (fun m => (⟨(m : Int), 0⟩ : JsNum))
        else if c0 = '0' ∧ (c1 = 'b' ∨ c1 = 'B') then
          (radixNat? 2 tl2).map (fun m => (⟨(m : Int), 0⟩ : JsNum))
        else jsDecimal? (c0 :: c1 :: tl2)) =
        some ⟨(natFromDigits (c0 :: c1 :: tl2) : Int), 0⟩
      rw [if_neg (fun hc => hc.2.elim hx1 hX1),
        if_neg (fun hc => hc.2.elim ho1 hO1),
        if_neg (fun hc => hc.2.elim hb1 hB1)]
      exact jsDecimal?_all_digits _ (List.cons_ne_nil _ _) hd

theorem jsFiniteNumber?_natToChars (n : Nat) :
    jsFiniteNumber? (String.mk (natToChars n)) = some ⟨(n : Int), 0⟩ := by
  have hd : ∀ c ∈ natToChars n, (charDigit? c).isSome = true :=
    fun c hc => (natToCharsAux_digits (n+1) n (by omega) c hc).1
  have hne : natToChars n ≠ [] := natToCharsAux_ne_nil (n+1) n (by omega)
  unfold jsFiniteNumber?
  rw [show (String.mk (natToChars n)).data = natToChars n from rfl,
    jsTrimData_of_digits _ hd,
    jsStrNumeric?_all_digits _ hne hd,
    natFromDigits_natToChars]

theorem natToChars_no_colon (n : Nat) : ':' ∉ natToChars n := by
  intro h
  exact (natToCharsAux_digits (n+1) n (by omega) ':' h).2 rfl

theorem splitOnColon_no_colon (l : List Char) (h : ':' ∉ l) :
    splitOnColon l = [l] := by
  induction l with
  | nil => rfl
  | cons c cs ih =>
    have hc : ¬(c = ':') := fun hh => h (hh ▸ List.mem_cons_self c cs)
    have hcs : ':' ∉ cs := fun hh => h (List.mem_cons_of_mem c hh)
    unfold splitOnColon
    rw [if_neg hc, ih hcs]

theorem splitOnColon_append (xs ys : List Char) (h : ':' ∉ xs) :
    splitOnColon (xs ++ ':' :: ys) = xs :: splitOnColon ys := by
  induction xs with
  | nil => simp [splitOnColon]
  | cons c cs ih =>
    have hc : ¬(c = ':') := fun hh => h (hh ▸ List.mem_cons_self c cs)
    have hcs : ':' ∉ cs := fun hh => h (List.mem_cons_of_mem c hh)
    show splitOnColon (c :: (cs ++ ':' :: ys)) = (c :: cs) :: splitOnColon ys
    conv_lhs => rw [splitOnColon]
    rw [if_neg hc, ih hcs]


theorem parseCursor_encodeCursorRow (r : HistoryRow) (hid : r.id ≠ "")
    (hcol : ':' ∉ r.id.data) :
    parseCursor (encodeCursorRow r) =
      some (⟨(r.created_at : Int), 0⟩, r.id) := by
  unfold parseCursor encodeCursorRow
  show (match splitOnColon (natToChars r.created_at ++ ':' :: r.id.data) with
    | ts :: id :: _ =>
      match jsFiniteNumber? (String.mk ts) with
      | some v => if id = [] then none else some (v, String.mk id)
      | none => none
    | _ => none) = some (⟨(r.created_at : Int), 0⟩, r.id)
  rw [splitOnColon_append _ _ (natToChars_no_colon r.created_at),
    splitOnColon_no_colon _ hcol]
  show (match jsFiniteNumber? (String.mk (natToChars r.created_at)) with
    | some v => if r.id.data = [] then none else some (v, String.mk r.id.data)
    | none => none) = some (⟨(r.created_at : Int), 0⟩, r.id)
  rw [jsFiniteNumber?_natToChars]
  have hdata : ¬(r.id.data = []) := by
    intro hh
    apply hid
    have heta : String.mk r.id.data = r.id := rfl
    rw [← heta, hh]
  show (if r.id.data = [] then none
    else some ((⟨(r.created_at : Int), 0⟩ : JsNum), String.mk r.id.data)) =
    some (⟨(r.created_at : Int), 0⟩, r.id)
  rw [if_neg hdata]

theorem afterCursor_eq_key_lt (r0 : HistoryRow) :
    afterCursor (⟨(r0.created_at : Int), 0⟩, r0.id) =
      fun x => decide (rowKey x < rowKey r0) := by
  funext x
  unfold afterCursor rowKey JsNum.gtNat JsNum.eqNat
  dsimp only
  rw [if_pos (le_refl (0 : Int)), if_pos (le_refl (0 : Int))]
  have hpow : ((10 : Int) ^ (0 : Int).toNat) = 1 := by norm_num
  rw [hpow, mul_one, ← Bool.decide_and, ← Bool.decide_or, decide_eq_decide,
    Prod.Lex.lt_iff]
  constructor
  · rintro (h | ⟨h1, h2⟩)
    · exact Or.inl (by exact_mod_cast h)
    · exact Or.inr ⟨by exact_mod_cast h1, String.lt_iff_toList_lt.mpr h2⟩
  · rintro (h | ⟨h1, h2⟩)
    · exact Or.inl (by exact_mod_cast h)
    · exact Or.inr ⟨by exact_mod_cast h1, String.lt_iff_toList_lt.mp h2⟩

theorem pairwise_strict_sorted (l : List HistoryRow)
    (hs : List.Sorted rowOrder l) (hn : (l.map rowKey).Nodup) :
    l.Pairwise (fun a b => rowKey b < rowKey a) := by
  have hne : l.Pairwise (fun a b => rowKey a ≠ rowKey b) := List.pairwise_map.mp hn
  exact (List.Pairwise.and hs hne).imp
    (fun hab => lt_of_le_of_ne hab.1 (Ne.symm hab.2))

theorem filter_key_lt_drop :
    ∀ (l : List HistoryRow), l.Pairwise (fun a b => rowKey b < rowKey a) →
    ∀ k (hk : k < l.length),
      l.filter (fun r => decide (rowKey r < rowKey (l.get ⟨k, hk⟩))) =
        l.drop (k + 1) := by
  intro l
  induction l with
  | nil => intro _ k hk; exact absurd hk (by simp)
  | cons a tl ih =>
    intro hp k hk
    obtain ⟨hhead, htl⟩ := List.pairwise_cons.mp hp
    cases k with
    | zero =>
      show (a :: tl).filter (fun r => decide (rowKey r < rowKey a)) = tl
      rw [List.filter_cons]
      have h1 : decide (rowKey a < rowKey a) = false := by simp
      simp only [h1, Bool.false_eq_true, if_false]
      rw [List.filter_eq_self.mpr]
      intro x hx
      exact decide_eq_true (hhead x hx)
    | succ k' =>
      have hk' : k' < tl.length := by simpa using hk
      show (a :: tl).filter
          (fun r => decide (rowKey r < rowKey (tl.get ⟨k', hk'⟩))) =
        tl.drop (k' + 1)
      rw [List.filter_cons]
      have h1 : decide (rowKey a < rowKey (tl.get ⟨k', hk'⟩)) = false := by
        simp only [decide_eq_false_iff_not]
        exact lt_asymm (hhead _ (tl.get_mem k' hk'))
      simp only [h1, Bool.false_eq_true, if_false]
      exact ih htl k' hk'

theorem listHistory_drop (ledger : List HistoryRow) (userKey : String)
    (limit : Int) (cursor : Option String) (k : Nat)
    (hids : ∀ r ∈ sortedUserRows ledger userKey, r.id ≠ "" ∧ ':' ∉ r.id.data)
    (hpw : (sortedUserRows ledger userKey).Pairwise (fun a b => rowKey b < rowKey a))
    (hcur : (cursor = none ∧ k = 0) ∨
      (1 ≤ k ∧ ∃ r, (sortedUserRows ledger userKey).get? (k-1) = some r ∧
        cursor = some (encodeCursorRow r))) :
    listHistory ledger userKey limit cursor =
      ⟨((sortedUserRows ledger userKey).drop k).take (safeLimitOf limit),
        if safeLimitOf limit < ((sortedUserRows ledger userKey).drop k).length
        then (((sortedUserRows ledger userKey).drop k).take
          (safeLimitOf limit)).getLast?.map encodeCursorRow
        else none⟩ := by
  have hfiltered : (match cursor.bind parseCursor with
      | some c => (sortedUserRows ledger userKey).filter (afterCursor c)
      | none => sortedUserRows ledger userKey) =
      (sortedUserRows ledger userKey).drop k := by
    rcases hcur with ⟨hc, hk⟩ | ⟨hk1, r, hget, hc⟩
    · subst hc
      subst hk
      rfl
    · subst hc
      have hrmem : r ∈ sortedUserRows ledger userKey := List.get?_mem hget
      obtain ⟨hrid, hrcol⟩ := hids r hrmem
      show (match parseCursor (encodeCursorRow r) with
        | some c => (sortedUserRows ledger userKey).filter (afterCursor c)
        | none => sortedUserRows ledger userKey) = _
      rw [parseCursor_encodeCursorRow r hrid hrcol]
      show (sortedUserRows ledger userKey).filter
        (afterCursor (⟨(r.created_at : Int), 0⟩, r.id)) = _
      rw [afterCursor_eq_key_lt]
      obtain ⟨hlen, hgeteq⟩ := List.get?_eq_some.mp hget
      rw [show r = (sortedUserRows ledger userKey).get ⟨k-1, hlen⟩ from hgeteq.symm]
      rw [filter_key_lt_drop _ hpw (k-1) hlen]
      congr 1
      omega
  unfold listHistory
  dsimp only
  rw [hfiltered]
  have htake : (((sortedUserRows ledger userKey).drop k).take
      (safeLimitOf limit + 1)).take (safeLimitOf limit) =
      ((sortedUserRows ledger userKey).drop k).take (safeLimitOf limit) := by
    rw [List.take_take]
    congr 1
    omega
  rw [htake]
  have hlen2 : (((sortedUserRows ledger userKey).drop k).take
      (safeLimitOf limit + 1)).length =
      min (safeLimitOf limit + 1) ((sortedUserRows ledger userKey).drop k).length :=
    List.length_take _ _
  by_cases hM : safeLimitOf limit < ((sortedUserRows ledger userKey).drop k).length
  · have hdec : decide (safeLimitOf limit <
        (((sortedUserRows ledger userKey).drop k).take
          (safeLimitOf limit + 1)).length) = true := by
      rw [hlen2]
      exact decide_eq_true (by omega)
    rw [hdec, if_pos hM]
    rfl
  · have hdec : decide (safeLimitOf limit <
        (((sortedUserRows ledger userKey).drop k).take
          (safeLimitOf limit + 1)).length) = false := by
      rw [hlen2]
      exact decide_eq_false (by omega)
    rw [hdec, if_neg hM]
    rfl

theorem safeLimitOf_pos (limit : Int) : 1 ≤ safeLimitOf limit := by
  unfold safeLimitOf
  have h1 : (1:Int) ≤ max 1 (min 50 limit) := le_max_left _ _
  omega

theorem listPagesFrom_spec (ledger : List HistoryRow) (userKey : String)
    (limit : Int)
    (hids : ∀ r ∈ sortedUserRows ledger userKey, r.id ≠ "" ∧ ':' ∉ r.id.data)
    (hpw : (sortedUserRows ledger userKey).Pairwise
      (fun a b => rowKey b < rowKey a)) :
    ∀ fuel k cursor,
      1 ≤ ((sortedUserRows ledger userKey).drop k).length →
      ((sortedUserRows ledger userKey).drop k).length ≤ fuel →
      ((cursor = none ∧ k = 0) ∨
        (1 ≤ k ∧ ∃ r, (sortedUserRows ledger userKey).get? (k-1) = some r ∧
          cursor = some (encodeCursorRow r))) →
      ((listPagesFrom ledger userKey limit cursor fuel).map
          HistoryListPage.items).flatten =
        (sortedUserRows ledger userKey).drop k ∧
      (listPagesFrom ledger userKey limit cursor fuel).length =
        (((sortedUserRows ledger userKey).drop k).length + safeLimitOf limit - 1) /
          safeLimitOf limit ∧
      (∀ p ∈ (listPagesFrom ledger userKey limit cursor fuel).dropLast,
        p.nextCursor ≠ none) ∧
      (∃ plast,
        (listPagesFrom ledger userKey limit cursor fuel).getLast? = some plast ∧
        plast.nextCursor = none) := by
  intro fuel
  induction fuel with
  | zero =>
    intro k cursor h1 h2 _
    omega
  | succ fuel ih =>
    intro k cursor hM1 hMf hcur
    have hL := safeLimitOf_pos limit
    have hlendrop : ((sortedUserRows ledger userKey).drop k).length =
        (sortedUserRows ledger userKey).length - k := List.length_drop _ _
    have hpage := listHistory_drop ledger userKey limit cursor k hids hpw hcur
    simp only [listPagesFrom]
    rw [hpage]
    by_cases hMore : safeLimitOf limit <
        ((sortedUserRows ledger userKey).drop k).length
    · -- more rows remain: the page carries a cursor and recursion continues
      rw [if_pos hMore]
      have hlenTake : (((sortedUserRows ledger userKey).drop k).take
          (safeLimitOf limit)).length = safeLimitOf limit := by
        rw [List.length_take]
        omega
      have hgetlast : (((sortedUserRows ledger userKey).drop k).take
          (safeLimitOf limit)).getLast? =
          some (((sortedUserRows ledger userKey).drop k).get
            ⟨safeLimitOf limit - 1, by omega⟩) := by
        rw [List.getLast?_eq_get?]
        simp only [hlenTake]
        rw [List.get?_take (show safeLimitOf limit - 1 < safeLimitOf limit by omega)]
        exact List.get?_eq_get _
      rw [hgetlast]
      simp only [Option.map_some']
      have hfullget : (sortedUserRows ledger userKey).get?
          (k + safeLimitOf limit - 1) =
          some (((sortedUserRows ledger userKey).drop k).get
            ⟨safeLimitOf limit - 1, by omega⟩) := by
        have hlt : k + (safeLimitOf limit - 1) <
            (sortedUserRows ledger userKey).length := by
          omega
        rw [show k + safeLimitOf limit - 1 = k + (safeLimitOf limit - 1) by omega]
        rw [List.get?_eq_get hlt]
        congr 1
        exact List.get_drop _ hlt
      have hlendrop2 : ((sortedUserRows ledger userKey).drop
          (k + safeLimitOf limit)).length =
          (sortedUserRows ledger userKey).length - (k + safeLimitOf limit) :=
        List.length_drop _ _
      obtain ⟨ihflat, ihlen, ihdrop, ihlast⟩ :=
        ih (k + safeLimitOf limit)
          (some (encodeCursorRow (((sortedUserRows ledger userKey).drop k).get
            ⟨safeLimitOf limit - 1, by omega⟩)))
          (by omega) (by omega)
          (Or.inr ⟨by omega,
            ((sortedUserRows ledger userKey).drop k).get
              ⟨safeLimitOf limit - 1, by omega⟩,
            hfullget, rfl⟩)
      have hdropdrop : (sortedUserRows ledger userKey).drop (k + safeLimitOf limit) =
          ((sortedUserRows ledger userKey).drop k).drop (safeLimitOf limit) :=
        (List.drop_drop _ _ _).symm
      have hrest_ne : listPagesFrom ledger userKey limit
          (some (encodeCursorRow (((sortedUserRows ledger userKey).drop k).get
            ⟨safeLimitOf limit - 1, by omega⟩))) fuel ≠ [] := by
        intro hnil
        obtain ⟨plast, hpl, _⟩ := ihlast
        rw [hnil] at hpl
        exact Option.noConfusion hpl
      refine ⟨?_, ?_, ?_, ?_⟩
      · rw [List.map_cons, List.flatten_cons, ihflat, hdropdrop]
        exact List.take_append_drop _ _
      · rw [List.length_cons, ihlen]
        have e1 : ((sortedUserRows ledger userKey).drop
            (k + safeLimitOf limit)).length + safeLimitOf limit - 1 =
            ((sortedUserRows ledger userKey).drop k).length - 1 := by
          omega
        have e2 : ((sortedUserRows ledger userKey).drop k).length +
            safeLimitOf limit - 1 =
            (((sortedUserRows ledger userKey).drop k).length - 1) +
              safeLimitOf limit := by
          omega
        rw [e1, e2, Nat.add_div_right _ (by omega)]
      · intro p hp
        rw [List.dropLast_cons_of_ne_nil hrest_ne] at hp
        rcases List.mem_cons.mp hp with rfl | hp2
        · intro hh
          exact Option.noConfusion hh
        · exact ihdrop p hp2
      · obtain ⟨plast, hpl, hplnone⟩ := ihlast
        refine ⟨plast, ?_, hplnone⟩
        cases hrest : listPagesFrom ledger userKey limit
            (some (encodeCursorRow (((sortedUserRows ledger userKey).drop k).get
              ⟨safeLimitOf limit - 1, by omega⟩))) fuel with
        | nil => exact absurd hrest hrest_ne
        | cons r0 rest2 =>
          rw [List.getLast?_cons_cons]
          rw [hrest] at hpl
          exact hpl
    · -- final page: everything fits, null cursor
      rw [if_neg hMore]
      have htakeall : ((sortedUserRows ledger userKey).drop k).take
          (safeLimitOf limit) = (sortedUserRows ledger userKey).drop k :=
        List.take_of_length_le (by omega)
      refine ⟨?_, ?_, ?_, ?_⟩
      · simp [htakeall]
      · simp only [List.length_cons, List.length_nil]
        have hdiv : (((sortedUserRows ledger userKey).drop k).length +
            safeLimitOf limit - 1) / safeLimitOf limit = 1 := by
          apply Nat.div_eq_of_lt_le
          · omega
          · omega
        omega
      · intro p hp
        simp at hp
      · exact ⟨_, rfl, rfl⟩

/-- C4: for every user and requested limit, `listHistory` uses the limit
clamped to [1, 50]; starting from no cursor and repeatedly passing back the
returned nextCursor yields ceil(N/L) pages (N ≥ 1 the user's record count,
L the clamped limit) that are pairwise disjoint, whose concatenation is the
full set of that user's records in `(created_at DESC, id DESC)` order, and
whose nextCursor is null exactly on the final page.  Hypotheses: the user's
record ids are nonempty, colon-free (UUIDs are), and have pairwise distinct
`(created_at, id)` sort keys (ids are unique, being the primary key). -/
theorem listHistory_pagination (ledger : List HistoryRow) (userKey : String)
    (limit : Int)
    (hids : ∀ r ∈ ledger.filter (fun r => r.user_key == userKey),
      r.id ≠ "" ∧ ':' ∉ r.id.data)
    (hnodup : ((ledger.filter (fun r => r.user_key == userKey)).map rowKey).Nodup)
    (hN : 1 ≤ (ledger.filter (fun r => r.user_key == userKey)).length) :
    ((listPages ledger userKey limit
        (ledger.filter (fun r => r.user_key == userKey)).length).map
        HistoryListPage.items).flatten = sortedUserRows ledger userKey ∧
    (listPages ledger userKey limit
        (ledger.filter (fun r => r.user_key == userKey)).length).length =
      ((ledger.filter (fun r => r.user_key == userKey)).length +
        safeLimitOf limit - 1) / safeLimitOf limit ∧
    (listPages ledger userKey limit
        (ledger.filter (fun r => r.user_key == userKey)).length).Pairwise
      (fun p q => p.items.Disjoint q.items) ∧
    (∀ p ∈ (listPages ledger userKey limit
        (ledger.filter (fun r => r.user_key == userKey)).length).dropLast,
      p.nextCursor ≠ none) ∧
    (∃ plast, (listPages ledger userKey limit
        (ledger.filter (fun r => r.user_key == userKey)).length).getLast? =
      some plast ∧ plast.nextCursor = none) := by
  have hperm : (sortedUserRows ledger userKey).Perm
      (ledger.filter (fun r => r.user_key == userKey)) :=
    List.perm_insertionSort rowOrder _
  have hlen : (sortedUserRows ledger userKey).length =
      (ledger.filter (fun r => r.user_key == userKey)).length := hperm.length_eq
  have hids2 : ∀ r ∈ sortedUserRows ledger userKey, r.id ≠ "" ∧ ':' ∉ r.id.data :=
    fun r hr => hids r (hperm.mem_iff.mp hr)
  have hnodup2 : ((sortedUserRows ledger userKey).map rowKey).Nodup :=
    ((hperm.map rowKey).nodup_iff).mpr hnodup
  have hpw := pairwise_strict_sorted _ (List.sorted_insertionSort rowOrder _) hnodup2
  have hspec := listPagesFrom_spec ledger userKey limit hids2 hpw
    ((ledger.filter (fun r => r.user_key == userKey)).length) 0 none
    (by rw [List.drop_zero, hlen]; exact hN)
    (by rw [List.drop_zero, hlen])
    (Or.inl ⟨rfl, rfl⟩)
  rw [List.drop_zero] at hspec
  obtain ⟨hflat, hlen2, hdropl, hlast⟩ := hspec
  have hnodupl : (sortedUserRows ledger userKey).Nodup :=
    List.Nodup.of_map rowKey hnodup2
  unfold listPages
  refine ⟨hflat, ?_, ?_, hdropl, hlast⟩
  · rw [hlen2, hlen]
  · have hfn : ((listPagesFrom ledger userKey limit none
        ((ledger.filter (fun r => r.user_key == userKey)).length)).map
        HistoryListPage.items).flatten.Nodup := by
      rw [hflat]
      exact hnodupl
    have hdisj := (List.nodup_flatten.mp hfn).2
    exact List.pairwise_map.mp hdisj

/-- Concrete instantiation of `listHistory_pagination`: three records,
limit 2, paginated to two disjoint pages covering all rows in order. -/
theorem listHistory_pagination_witness :
    ((listPages sampleLedger "u" 2
        (sampleLedger.filter (fun r => r.user_key == "u")).length).map
        HistoryListPage.items).flatten = sortedUserRows sampleLedger "u" ∧
    (listPages sampleLedger "u" 2
        (sampleLedger.filter (fun r => r.user_key == "u")).length).length =
      ((sampleLedger.filter (fun r => r.user_key == "u")).length +
        safeLimitOf 2 - 1) / safeLimitOf 2 ∧
    (listPages sampleLedger "u" 2
        (sampleLedger.filter (fun r => r.user_key == "u")).length).Pairwise
      (fun p q => p.items.Disjoint q.items) ∧
    (∀ p ∈ (listPages sampleLedger "u" 2
        (sampleLedger.filter (fun r => r.user_key == "u")).length).dropLast,
      p.nextCursor ≠ none) ∧
    (∃ plast, (listPages sampleLedger "u" 2
        (sampleLedger.filter (fun r => r.user_key == "u")).length).getLast? =
      some plast ∧ plast.nextCursor = none) :=
  listHistory_pagination sampleLedger "u" 2 (by decide) (by decide) (by decide)

end BananaPod
